import Mathlib

/-!
Verification of `youtube_caption_finder` against its specification.

The Python sources are shallowly embedded: strings are `List Char`,
Python `dict`/JSON values are an inductive `Json` type, the DOM tree that
BeautifulSoup produces is an inductive `Node` type, raised exceptions are
`Except` errors, and the network is an explicit oracle parameter.
-/

/-! ### Characters that are special to the scanner (written via code points) -/

/-- The double-quote character. -/
def dquoteC : Char := Char.ofNat 34

/-- The single-quote character. -/
def squoteC : Char := Char.ofNat 39

/-- The backslash character. -/
def bslashC : Char := Char.ofNat 92

/-- The opening curly brace. -/
def lbraceC : Char := Char.ofNat 123

/-- The closing curly brace. -/
def rbraceC : Char := Char.ofNat 125

/-- The newline character. -/
def nlC : Char := Char.ofNat 10

/-- ASCII whitespace, as matched by the regex class `\s` and by Python's
`str.strip` / `str.split` (restricted to the ASCII range for this model). -/
def isPySpace (c : Char) : Bool :=
  c = ' ' || c = Char.ofNat 9 || c = nlC || c = Char.ofNat 13 ||
    c = Char.ofNat 11 || c = Char.ofNat 12

/-! ### The balanced-brace scanner of `channel.extract_yt_initial_data`

`scanAux` is a step-for-step translation of the Python character loop:

    for i, ch in enumerate(html[start_index:], start=start_index):
        if in_string: ...
        else: ...

`depth` is `brace_count` (an `Int`, as in Python), `inStr`/`sc`/`esc` are
`in_string`/`string_char`/`escape`, and `pos` counts consumed characters.
The result is the number of characters consumed up to and including the
closing brace that brings the count to zero, or `none` when the input is
exhausted first (Python then leaves `end_index = start_index`). -/
def scanAux : List Char → Int → Bool → Char → Bool → Nat → Option Nat
  | [], _, _, _, _, _ => none
  | c :: cs, depth, inStr, sc, esc, pos =>
    if inStr then
      if esc then scanAux cs depth true sc false (pos + 1)
      else if c = bslashC then scanAux cs depth true sc true (pos + 1)
      else if c = sc then scanAux cs depth false sc false (pos + 1)
      else scanAux cs depth true sc false (pos + 1)
    else
      if c = dquoteC || c = squoteC then scanAux cs depth true c esc (pos + 1)
      else if c = lbraceC then scanAux cs (depth + 1) false sc esc (pos + 1)
      else if c = rbraceC then
        if depth - 1 = 0 then some (pos + 1)
        else scanAux cs (depth - 1) false sc esc (pos + 1)
      else scanAux cs depth false sc esc (pos + 1)

/-- Run the scanner from the opening brace the way the Python loop starts:
`brace_count = 0`, not inside a string (`string_char` starts as Python's
empty string; any sentinel works since it is only read inside strings). -/
def scanEnd (s : List Char) : Option Nat := scanAux s 0 false (Char.ofNat 0) false 0

/-! ### The assignment-locating regex

The source uses
`re.search(r"(?:window\[\s*[quote]ytInitialData[quote]\s*\]|ytInitialData)\s*=\s*(\x7b)", html)`.
Both alternatives start with distinct literal characters, and every `\s*`
is followed by a non-whitespace literal, so the leftmost match is
deterministic; `matchAt` decides a match at one position and returns the
offset of the captured opening brace, and `searchFrom` scans positions
left to right as `re.search` does. -/

/-- Strip a literal off the front of the input, or fail. -/
def stripLit : List Char → List Char → Option (List Char)
  | [], s => some s
  | _ :: _, [] => none
  | p :: ps, c :: cs => if c = p then stripLit ps cs else none

/-- The characters of the literal `ytInitialData`. -/
def ytLit : List Char := ("ytInitialData").toList

/-- The characters of the literal `window[`. -/
def windowLit : List Char := ("window[").toList

/-- Match the tail `\s*=\s*(brace)` of the pattern; `s0` is the whole
suffix being matched, used to compute the offset of the brace. -/
def matchEq (s0 s : List Char) : Option Nat :=
  match stripLit ['='] (s.dropWhile isPySpace) with
  | none => none
  | some s2 =>
    match (s2.dropWhile isPySpace) with
    | [] => none
    | c :: _ =>
      if c = lbraceC then some (s0.length - ((s2.dropWhile isPySpace).length)) else none

/-- Match the alternative `window\[\s*[quote]ytInitialData[quote]\s*\]` then the tail. -/
def matchAlt1 (s0 : List Char) : Option Nat :=
  match stripLit windowLit s0 with
  | none => none
  | some s1 =>
    match (s1.dropWhile isPySpace) with
    | [] => none
    | q :: s2 =>
      if q = squoteC || q = dquoteC then
        match stripLit ytLit s2 with
        | none => none
        | some s3 =>
          match s3 with
          | [] => none
          | q2 :: s4 =>
            if q2 = squoteC || q2 = dquoteC then
              match stripLit [']'] (s4.dropWhile isPySpace) with
              | none => none
              | some s5 => matchEq s0 s5
            else none
      else none

/-- Match the alternative `ytInitialData` then the tail. -/
def matchAlt2 (s0 : List Char) : Option Nat :=
  match stripLit ytLit s0 with
  | none => none
  | some s1 => matchEq s0 s1

/-- Match the whole pattern at one position (the two alternatives begin
with different characters, so their order cannot matter). -/
def matchAt (s : List Char) : Option Nat :=
  match matchAlt1 s with
  | some r => some r
  | none => matchAlt2 s

/-- Leftmost search, as `re.search`: try each position in order; the
returned number is the absolute index of the captured opening brace. -/
def searchFrom : List Char → Nat → Option Nat
  | [], _ => none
  | c :: cs, i =>
    match matchAt (c :: cs) with
    | some off => some (i + off)
    | none => searchFrom cs (i + 1)

/-- `re.search` over the whole document: absolute index of `match.start(1)`. -/
def findAssign (html : List Char) : Option Nat := searchFrom html 0

/-- Failures of `extract_yt_initial_data`: `notFound` is the
`ValueError("ytInitialData not found in HTML")` (the spec's
`NotFoundError`), `malformedJson` is the `json.JSONDecodeError`
that `json.loads` raises (the spec's `MalformedJsonError`). -/
inductive ExtractErr where
  | notFound
  | malformedJson
deriving DecidableEq

/-- `channel.extract_yt_initial_data`, up to the `json.loads` call: locate
the assignment, run the balanced-brace scan and return the captured span
`html[start_index:end_index]` that the source hands to `json.loads`.
When the scan exhausts the document without closing (`end_index` stays
`start_index`), the source calls `json.loads("")`, which always raises
`json.JSONDecodeError`; that branch is therefore an error here. -/
def extract_yt_initial_data (html : List Char) : Except ExtractErr (List Char) :=
  match findAssign html with
  | none => Except.error ExtractErr.notFound
  | some start =>
    match scanEnd (html.drop start) with
    | none => Except.error ExtractErr.malformedJson
    | some len => Except.ok ((html.drop start).take len)

/-! ### A model of the JSON values carried by `ytInitialData`

Mutual (rather than nested) inductives keep induction simple. `render`
produces the canonical serialized text of a value: strings are
double-quoted with `\` escaping of the quote and the backslash, exactly
the characters on which the scanner's escape handling is exercised. -/

mutual

inductive Json where
  | null : Json
  | bool (b : Bool) : Json
  | num (n : Int) : Json
  | str (s : List Char) : Json
  | arr (xs : JsonList) : Json
  | obj (fs : JsonFields) : Json

inductive JsonList where
  | nil : JsonList
  | cons (hd : Json) (tl : JsonList) : JsonList

inductive JsonFields where
  | nil : JsonFields
  | cons (k : List Char) (v : Json) (tl : JsonFields) : JsonFields

end

deriving instance DecidableEq for Json, JsonList, JsonFields

deriving instance DecidableEq for Except

/-- Escape a string body for serialization: quote and backslash get a
preceding backslash, everything else is copied. -/
def escapeStr : List Char → List Char
  | [] => []
  | c :: cs =>
    if c = dquoteC || c = bslashC then bslashC :: c :: escapeStr cs
    else c :: escapeStr cs

/-- The decimal digit character of `n % 10`. -/
def digitChar10 (n : Nat) : Char := Char.ofNat (48 + n % 10)

/-- Decimal digits of a natural number, most significant first. -/
def natDigits (n : Nat) : List Char :=
  if _h : n < 10 then [digitChar10 n]
  else natDigits (n / 10) ++ [digitChar10 (n % 10)]
decreasing_by exact Nat.div_lt_self (by omega) (by omega)

/-- Decimal rendering of an integer, as Python's `str`. -/
def intStr (n : Int) : List Char :=
  if n < 0 then '-' :: natDigits (-n).toNat else natDigits n.toNat

mutual

/-- Serialized text of a JSON value. -/
def render : Json → List Char
  | Json.null => ("null").toList
  | Json.bool true => ("true").toList
  | Json.bool false => ("false").toList
  | Json.num n => intStr n
  | Json.str s => dquoteC :: (escapeStr s ++ [dquoteC])
  | Json.arr xs => '[' :: (renderArr xs ++ [']'])
  | Json.obj fs => lbraceC :: (renderObj fs ++ [rbraceC])

/-- Serialized text of the comma-separated element list of an array. -/
def renderArr : JsonList → List Char
  | JsonList.nil => []
  | JsonList.cons j JsonList.nil => render j
  | JsonList.cons j tl => render j ++ ',' :: renderArr tl

/-- Serialized text of the comma-separated member list of an object. -/
def renderObj : JsonFields → List Char
  | JsonFields.nil => []
  | JsonFields.cons k v JsonFields.nil => dquoteC :: (escapeStr k ++ dquoteC :: ':' :: render v)
  | JsonFields.cons k v tl =>
      (dquoteC :: (escapeStr k ++ dquoteC :: ':' :: render v)) ++ ',' :: renderObj tl

end

/-! ### Correctness of the balanced scan on serialized JSON -/

/-- A character the scanner treats as ordinary outside strings: neither
kind of quote and neither brace. -/
def notSpecial (c : Char) : Prop :=
  c ≠ dquoteC ∧ c ≠ squoteC ∧ c ≠ lbraceC ∧ c ≠ rbraceC

instance (c : Char) : Decidable (notSpecial c) := by
  unfold notSpecial
  infer_instance

/-- Outside a string the remembered delimiter is never read, so the scan
does not depend on it. -/
theorem scanAux_sc_irrel (cs : List Char) :
    ∀ (d : Int) (sc sc' : Char) (esc : Bool) (pos : Nat),
      scanAux cs d false sc esc pos = scanAux cs d false sc' esc pos := by
  induction cs with
  | nil => intro d sc sc' esc pos; rfl
  | cons c cs ih =>
    intro d sc sc' esc pos
    simp only [scanAux, Bool.false_eq_true, if_false]
    by_cases h1 : (c = dquoteC || c = squoteC) = true
    · simp [h1]
    · simp only [h1, if_false]
      by_cases h2 : c = lbraceC
      · simp only [h2, if_true]
        exact ih _ _ _ _ _
      · simp only [h2, if_false]
        by_cases h3 : c = rbraceC
        · by_cases h4 : d - 1 = 0
          · simp [h3, h4]
          · simp only [h3, h4, if_true, if_false]
            exact ih _ _ _ _ _
        · simp only [h3, if_false]
          exact ih _ _ _ _ _

/-- One ordinary character outside a string: state unchanged, one
character consumed. -/
theorem scanAux_step_neutral (c : Char) (hc : notSpecial c) (cs : List Char)
    (d : Int) (sc : Char) (esc : Bool) (pos : Nat) :
    scanAux (c :: cs) d false sc esc pos = scanAux cs d false sc esc (pos + 1) := by
  obtain ⟨h1, h2, h3, h4⟩ := hc
  simp [scanAux, h1, h2, h3, h4]

/-- A run of ordinary characters outside a string is skipped over. -/
theorem scanAux_neutral (l : List Char) (hl : ∀ c ∈ l, notSpecial c) :
    ∀ (rest : List Char) (d : Int) (sc : Char) (esc : Bool) (pos : Nat),
      scanAux (l ++ rest) d false sc esc pos = scanAux rest d false sc esc (pos + l.length) := by
  induction l with
  | nil => intro rest d sc esc pos; simp
  | cons c l ih =>
    intro rest d sc esc pos
    rw [List.cons_append, scanAux_step_neutral c (hl c (by simp)) _ d sc esc pos,
      ih (fun x hx => hl x (by simp [hx])) rest d sc esc (pos + 1)]
    have harg : pos + 1 + l.length = pos + (c :: l).length := by
      rw [List.length_cons]; omega
    rw [harg]

/-- Scanning the escaped body of a double-quoted string and its closing
quote, starting just inside the string: every escaped quote or backslash
is passed over, and the closing quote leaves string mode. -/
theorem scanAux_string_body (s : List Char) :
    ∀ (rest : List Char) (d : Int) (pos : Nat),
      scanAux (escapeStr s ++ (dquoteC :: rest)) d true dquoteC false pos
        = scanAux rest d false dquoteC false (pos + (escapeStr s).length + 1) := by
  induction s with
  | nil =>
    intro rest d pos
    simp [escapeStr, scanAux, show dquoteC ≠ bslashC by decide]
  | cons c s ih =>
    intro rest d pos
    by_cases hc : (c = dquoteC || c = bslashC) = true
    · have : escapeStr (c :: s) = bslashC :: c :: escapeStr s := by simp [escapeStr, hc]
      rw [this]
      simp only [List.cons_append]
      rw [show scanAux (bslashC :: (c :: (escapeStr s ++ dquoteC :: rest))) d true dquoteC false pos
            = scanAux (c :: (escapeStr s ++ dquoteC :: rest)) d true dquoteC true (pos + 1) by
          simp [scanAux]]
      rw [show scanAux (c :: (escapeStr s ++ dquoteC :: rest)) d true dquoteC true (pos + 1)
            = scanAux (escapeStr s ++ dquoteC :: rest) d true dquoteC false (pos + 1 + 1) by
          simp [scanAux]]
      rw [ih rest d (pos + 1 + 1)]
      have harg : pos + 1 + 1 + (escapeStr s).length + 1
          = pos + (escapeStr (c :: s)).length + 1 := by
        rw [this, List.length_cons, List.length_cons]; omega
      rw [harg, this]
    · have hq : ¬ c = dquoteC := by
        intro h; rw [h] at hc; simp at hc
      have hb : ¬ c = bslashC := by
        intro h; rw [h] at hc; simp at hc
      have : escapeStr (c :: s) = c :: escapeStr s := by simp [escapeStr, hq, hb]
      rw [this]
      simp only [List.cons_append]
      rw [show scanAux (c :: (escapeStr s ++ dquoteC :: rest)) d true dquoteC false pos
            = scanAux (escapeStr s ++ dquoteC :: rest) d true dquoteC false (pos + 1) by
          simp [scanAux, hq, hb]]
      rw [ih rest d (pos + 1)]
      have harg : pos + 1 + (escapeStr s).length + 1
          = pos + (escapeStr (c :: s)).length + 1 := by
        rw [this, List.length_cons]; omega
      rw [harg, this]

/-- Decimal digit characters are ordinary for the scanner. -/
theorem notSpecial_digitChar10 (n : Nat) : notSpecial (digitChar10 n) := by
  unfold digitChar10
  have h : n % 10 < 10 := Nat.mod_lt _ (by norm_num)
  set m := n % 10 with hm
  interval_cases m <;> decide

/-- Every character `natDigits` emits is ordinary for the scanner. -/
theorem notSpecial_natDigits (n : Nat) : ∀ c ∈ natDigits n, notSpecial c := by
  induction n using Nat.strong_induction_on with
  | _ n ih =>
    intro c hc
    rw [natDigits] at hc
    by_cases h : n < 10
    · simp only [h, dif_pos] at hc
      simp at hc
      rw [hc]; exact notSpecial_digitChar10 n
    · simp only [h, dif_neg, not_false_iff] at hc
      rcases List.mem_append.mp hc with h1 | h2
      · exact ih (n / 10) (Nat.div_lt_self (by omega) (by omega)) c h1
      · simp at h2
        rw [h2]; exact notSpecial_digitChar10 (n % 10)

/-- Every character `intStr` emits is ordinary for the scanner. -/
theorem notSpecial_intStr (n : Int) : ∀ c ∈ intStr n, notSpecial c := by
  intro c hc
  unfold intStr at hc
  by_cases h : n < 0
  · simp only [h, if_pos] at hc
    rcases List.mem_cons.mp hc with h1 | h2
    · rw [h1]; decide
    · exact notSpecial_natDigits _ c h2
  · simp only [h, if_neg, not_false_iff] at hc
    exact notSpecial_natDigits _ c hc

/-- Opening-brace step of the scanner. -/
theorem scanAux_step_lbrace (cs : List Char) (d : Int) (sc : Char) (esc : Bool) (pos : Nat) :
    scanAux (lbraceC :: cs) d false sc esc pos = scanAux cs (d + 1) false sc esc (pos + 1) := by
  simp [scanAux, show lbraceC ≠ dquoteC by decide, show lbraceC ≠ squoteC by decide]

/-- Closing-brace step when the count stays positive. -/
theorem scanAux_step_rbrace_continue (cs : List Char) (d : Int) (sc : Char) (esc : Bool)
    (pos : Nat) (h : ¬ d - 1 = 0) :
    scanAux (rbraceC :: cs) d false sc esc pos = scanAux cs (d - 1) false sc esc (pos + 1) := by
  simp [scanAux, h, show rbraceC ≠ dquoteC by decide, show rbraceC ≠ squoteC by decide,
    show rbraceC ≠ lbraceC by decide]

/-- Closing-brace step when the count reaches zero: the scan stops. -/
theorem scanAux_step_rbrace_done (cs : List Char) (d : Int) (sc : Char) (esc : Bool)
    (pos : Nat) (h : d - 1 = 0) :
    scanAux (rbraceC :: cs) d false sc esc pos = some (pos + 1) := by
  simp [scanAux, h, show rbraceC ≠ dquoteC by decide, show rbraceC ≠ squoteC by decide,
    show rbraceC ≠ lbraceC by decide]

/-- Double-quote step outside a string: string mode is entered. -/
theorem scanAux_step_dquote (cs : List Char) (d : Int) (sc : Char) (esc : Bool) (pos : Nat) :
    scanAux (dquoteC :: cs) d false sc esc pos = scanAux cs d true dquoteC esc (pos + 1) := by
  simp [scanAux]

/-- A whole serialized string literal (open quote, escaped body, close
quote) is passed over without touching the brace count. -/
theorem scan_renderStr (s : List Char) (rest : List Char) (d : Int) (sc : Char) (pos : Nat) :
    scanAux ((dquoteC :: (escapeStr s ++ [dquoteC])) ++ rest) d false sc false pos
      = scanAux rest d false sc false (pos + ((escapeStr s).length + 2)) := by
  rw [List.cons_append, scanAux_step_dquote, List.append_assoc, List.singleton_append,
    scanAux_string_body s rest d (pos + 1), scanAux_sc_irrel rest d dquoteC sc false]
  have harg : pos + 1 + (escapeStr s).length + 1 = pos + ((escapeStr s).length + 2) := by omega
  rw [harg]

mutual

/-- Scanning the serialization of any JSON value from outside a string
with a positive brace count passes over it completely: the count, mode
and escape flag come back unchanged and the scan never stops inside. -/
theorem scan_render (j : Json) :
    ∀ (d : Int) (rest : List Char) (sc : Char) (pos : Nat), 1 ≤ d →
      scanAux (render j ++ rest) d false sc false pos
        = scanAux rest d false sc false (pos + (render j).length) := by
  cases j with
  | null =>
    intro d rest sc pos _
    exact scanAux_neutral _ (by decide) rest d sc false pos
  | bool b =>
    intro d rest sc pos _
    cases b
    · exact scanAux_neutral _ (by decide) rest d sc false pos
    · exact scanAux_neutral _ (by decide) rest d sc false pos
  | num n =>
    intro d rest sc pos _
    exact scanAux_neutral _ (notSpecial_intStr n) rest d sc false pos
  | str s =>
    intro d rest sc pos _
    rw [show render (Json.str s) = dquoteC :: (escapeStr s ++ [dquoteC]) from rfl,
      scan_renderStr s rest d sc pos]
    have harg : pos + ((escapeStr s).length + 2)
        = pos + (dquoteC :: (escapeStr s ++ [dquoteC])).length := by
      simp
    rw [harg]
  | arr xs =>
    intro d rest sc pos hd
    rw [show render (Json.arr xs) = '[' :: (renderArr xs ++ [']']) from rfl]
    rw [List.cons_append, scanAux_step_neutral '[' (by decide) _ d sc false pos,
      List.append_assoc, List.singleton_append,
      scan_renderArr xs d (']' :: rest) sc (pos + 1) hd,
      scanAux_step_neutral ']' (by decide) rest d sc false _]
    have harg : pos + 1 + (renderArr xs).length + 1
        = pos + ('[' :: (renderArr xs ++ [']'])).length := by
      simp; omega
    rw [harg]
  | obj fs =>
    intro d rest sc pos hd
    rw [show render (Json.obj fs) = lbraceC :: (renderObj fs ++ [rbraceC]) from rfl]
    rw [List.cons_append, scanAux_step_lbrace _ d sc false pos,
      List.append_assoc, List.singleton_append,
      scan_renderObj fs (d + 1) (rbraceC :: rest) sc (pos + 1) (by omega),
      scanAux_step_rbrace_continue rest (d + 1) sc false _ (by omega)]
    have hd1 : d + 1 - 1 = d := by omega
    rw [hd1]
    have harg : pos + 1 + (renderObj fs).length + 1
        = pos + (lbraceC :: (renderObj fs ++ [rbraceC])).length := by
      simp; omega
    rw [harg]

/-- `scan_render` for the comma-separated element list of an array. -/
theorem scan_renderArr (xs : JsonList) :
    ∀ (d : Int) (rest : List Char) (sc : Char) (pos : Nat), 1 ≤ d →
      scanAux (renderArr xs ++ rest) d false sc false pos
        = scanAux rest d false sc false (pos + (renderArr xs).length) := by
  cases xs with
  | nil =>
    intro d rest sc pos _
    simp [renderArr]
  | cons j tl =>
    cases tl with
    | nil =>
      intro d rest sc pos hd
      rw [show renderArr (JsonList.cons j JsonList.nil) = render j from rfl]
      exact scan_render j d rest sc pos hd
    | cons j2 tl2 =>
      intro d rest sc pos hd
      rw [show renderArr (JsonList.cons j (JsonList.cons j2 tl2))
            = render j ++ ',' :: renderArr (JsonList.cons j2 tl2) from rfl]
      rw [List.append_assoc, scan_render j d _ sc pos hd, List.cons_append,
        scanAux_step_neutral ',' (by decide) _ d sc false _,
        scan_renderArr (JsonList.cons j2 tl2) d rest sc _ hd]
      have harg : pos + (render j).length + 1 + (renderArr (JsonList.cons j2 tl2)).length
          = pos + (render j ++ ',' :: renderArr (JsonList.cons j2 tl2)).length := by
        simp; omega
      rw [harg]

/-- `scan_render` for the comma-separated member list of an object. -/
theorem scan_renderObj (fs : JsonFields) :
    ∀ (d : Int) (rest : List Char) (sc : Char) (pos : Nat), 1 ≤ d →
      scanAux (renderObj fs ++ rest) d false sc false pos
        = scanAux rest d false sc false (pos + (renderObj fs).length) := by
  cases fs with
  | nil =>
    intro d rest sc pos _
    simp [renderObj]
  | cons k v tl =>
    cases tl with
    | nil =>
      intro d rest sc pos hd
      rw [show renderObj (JsonFields.cons k v JsonFields.nil)
            = dquoteC :: (escapeStr k ++ dquoteC :: ':' :: render v) from rfl]
      rw [List.cons_append, scanAux_step_dquote, List.append_assoc, List.cons_append,
        scanAux_string_body k _ d (pos + 1), scanAux_sc_irrel _ d dquoteC sc false,
        List.cons_append, scanAux_step_neutral ':' (by decide) _ d sc false _,
        scan_render v d rest sc _ hd]
      have harg : pos + 1 + (escapeStr k).length + 1 + 1 + (render v).length
          = pos + (dquoteC :: (escapeStr k ++ dquoteC :: ':' :: render v)).length := by
        simp; omega
      rw [harg]
    | cons k2 v2 tl2 =>
      intro d rest sc pos hd
      rw [show renderObj (JsonFields.cons k v (JsonFields.cons k2 v2 tl2))
            = (dquoteC :: (escapeStr k ++ dquoteC :: ':' :: render v))
                ++ ',' :: renderObj (JsonFields.cons k2 v2 tl2) from rfl]
      rw [List.append_assoc, List.cons_append, scanAux_step_dquote, List.append_assoc,
        List.cons_append, scanAux_string_body k _ d (pos + 1),
        scanAux_sc_irrel _ d dquoteC sc false, List.cons_append,
        scanAux_step_neutral ':' (by decide) _ d sc false _,
        scan_render v d _ sc _ hd, List.cons_append,
        scanAux_step_neutral ',' (by decide) _ d sc false _,
        scan_renderObj (JsonFields.cons k2 v2 tl2) d rest sc _ hd]
      have harg : pos + 1 + (escapeStr k).length + 1 + 1 + (render v).length + 1
            + (renderObj (JsonFields.cons k2 v2 tl2)).length
          = pos + ((dquoteC :: (escapeStr k ++ dquoteC :: ':' :: render v))
              ++ ',' :: renderObj (JsonFields.cons k2 v2 tl2)).length := by
        simp; omega
      rw [harg]

end

/-- Scanning a serialized top-level object from the initial state stops
exactly at its final closing brace. -/
theorem scanEnd_obj (fs : JsonFields) (post : List Char) :
    scanEnd (render (Json.obj fs) ++ post) = some ((render (Json.obj fs)).length) := by
  unfold scanEnd
  rw [show render (Json.obj fs) = lbraceC :: (renderObj fs ++ [rbraceC]) from rfl]
  rw [List.cons_append, scanAux_step_lbrace _ 0 _ false 0, List.append_assoc,
    List.singleton_append, show (0 : Int) + 1 = 1 from by norm_num,
    scan_renderObj fs 1 _ _ _ (by norm_num),
    scanAux_step_rbrace_done _ 1 _ false _ (by norm_num)]
  simp
  omega

/-- A literal is stripped from its own append. -/
theorem stripLit_append (p s : List Char) : stripLit p (p ++ s) = some s := by
  induction p with
  | nil => rfl
  | cons c p ih => simp [stripLit, ih]

/-- The literal text `ytInitialData = ` in front of the serialized object
in the documents of the extraction theorem. -/
def assignLit : List Char := ("ytInitialData = ").toList

/-- The two assignment shapes the claim quantifies over: the bare
`ytInitialData = ` form, and the `window[<q>ytInitialData<q>] = ` form
with a quote character `q` on both sides. -/
inductive AssignForm where
  | bare
  | window (q : Char)

/-- The literal text of an assignment, up to and excluding the opening
brace of the object. -/
def assignText : AssignForm → List Char
  | AssignForm.bare => ytLit ++ [' ', '=', ' ']
  | AssignForm.window q => windowLit ++ (q :: (ytLit ++ [q, ']', ' ', '=', ' ']))

/-- The window form must use a single or a double quote. -/
def quoteOk : AssignForm → Prop
  | AssignForm.bare => True
  | AssignForm.window q => q = squoteC ∨ q = dquoteC

/-- The tail `\s*=\s*(brace)` of the pattern matched against
` = ` followed by a serialized object: the captured offset is the
length of everything in `s0` before the object. -/
theorem matchEq_at_obj (s0 : List Char) (fs : JsonFields) (post : List Char) :
    matchEq s0 (' ' :: ('=' :: (' ' :: (render (Json.obj fs) ++ post))))
      = some (s0.length - (render (Json.obj fs) ++ post).length) := by
  have hrender : render (Json.obj fs) = lbraceC :: (renderObj fs ++ [rbraceC]) := rfl
  have e2 : List.dropWhile isPySpace (' ' :: ('=' :: (' ' :: (render (Json.obj fs) ++ post))))
      = '=' :: (' ' :: (render (Json.obj fs) ++ post)) := by
    simp [List.dropWhile, isPySpace, show ¬ '=' = nlC by decide,
      show ¬ '=' = Char.ofNat 9 by decide, show ¬ '=' = Char.ofNat 13 by decide,
      show ¬ '=' = Char.ofNat 11 by decide, show ¬ '=' = Char.ofNat 12 by decide]
  have e3 : stripLit ['='] ('=' :: (' ' :: (render (Json.obj fs) ++ post)))
      = some (' ' :: (render (Json.obj fs) ++ post)) := by
    simp [stripLit]
  have e4 : List.dropWhile isPySpace (' ' :: (render (Json.obj fs) ++ post))
      = lbraceC :: ((renderObj fs ++ [rbraceC]) ++ post) := by
    rw [hrender]
    simp [List.dropWhile, isPySpace, show ¬ lbraceC = ' ' by decide,
      show ¬ lbraceC = Char.ofNat 9 by decide, show ¬ lbraceC = nlC by decide,
      show ¬ lbraceC = Char.ofNat 13 by decide, show ¬ lbraceC = Char.ofNat 11 by decide,
      show ¬ lbraceC = Char.ofNat 12 by decide]
  simp only [matchEq, e2, e3, e4]
  simp only [show (lbraceC = lbraceC) = True from by simp, if_true]
  congr 1

/-- The pattern matches at the start of a bare assignment followed by a
serialized object, capturing the brace right after the literal. -/
theorem matchAt_assign_bare (fs : JsonFields) (post : List Char) :
    matchAt (assignText AssignForm.bare ++ (render (Json.obj fs) ++ post))
      = some ((assignText AssignForm.bare).length) := by
  have hform : assignText AssignForm.bare = ytLit ++ [' ', '=', ' '] := rfl
  have h1 : matchAlt1 (assignText AssignForm.bare ++ (render (Json.obj fs) ++ post))
      = none := by
    rw [hform]
    simp [matchAlt1, windowLit, ytLit, stripLit]
  have e1 : stripLit ytLit (assignText AssignForm.bare ++ (render (Json.obj fs) ++ post))
      = some (' ' :: ('=' :: (' ' :: (render (Json.obj fs) ++ post)))) := by
    rw [hform, List.append_assoc, stripLit_append]
    simp
  have h2 : matchAlt2 (assignText AssignForm.bare ++ (render (Json.obj fs) ++ post))
      = some ((assignText AssignForm.bare).length) := by
    simp only [matchAlt2, e1, matchEq_at_obj]
    congr 1
    rw [hform]
    simp [ytLit]
    omega
  rw [matchAt, h1, h2]

/-- The pattern matches at the start of a window-form assignment (with a
single or a double quote) followed by a serialized object, capturing the
brace right after the literal. -/
theorem matchAt_assign_window (q : Char) (hq : q = squoteC ∨ q = dquoteC)
    (fs : JsonFields) (post : List Char) :
    matchAt (assignText (AssignForm.window q) ++ (render (Json.obj fs) ++ post))
      = some ((assignText (AssignForm.window q)).length) := by
  have hqs : isPySpace q = false := by
    rcases hq with h | h <;> rw [h] <;> decide
  have hcond : (q = squoteC || q = dquoteC) = true := by
    rcases hq with h | h <;> simp [h]
  have hform : assignText (AssignForm.window q) ++ (render (Json.obj fs) ++ post)
      = windowLit ++ (q :: (ytLit ++ (q :: (']' :: (' ' :: ('=' :: (' ' ::
          (render (Json.obj fs) ++ post)))))))) := by
    simp [assignText, List.append_assoc]
  have f1 : stripLit windowLit (windowLit ++ (q :: (ytLit ++ (q :: (']' :: (' ' :: ('=' ::
        (' ' :: (render (Json.obj fs) ++ post)))))))))
      = some (q :: (ytLit ++ (q :: (']' :: (' ' :: ('=' :: (' ' ::
          (render (Json.obj fs) ++ post)))))))) := stripLit_append _ _
  have f2 : List.dropWhile isPySpace (q :: (ytLit ++ (q :: (']' :: (' ' :: ('=' :: (' ' ::
        (render (Json.obj fs) ++ post))))))))
      = q :: (ytLit ++ (q :: (']' :: (' ' :: ('=' :: (' ' ::
          (render (Json.obj fs) ++ post))))))) := by
    rw [List.dropWhile_cons, hqs]
    simp
  have f3 : stripLit ytLit (ytLit ++ (q :: (']' :: (' ' :: ('=' :: (' ' ::
        (render (Json.obj fs) ++ post)))))))
      = some (q :: (']' :: (' ' :: ('=' :: (' ' ::
          (render (Json.obj fs) ++ post)))))) := stripLit_append _ _
  have f4 : List.dropWhile isPySpace (']' :: (' ' :: ('=' :: (' ' ::
        (render (Json.obj fs) ++ post)))))
      = ']' :: (' ' :: ('=' :: (' ' :: (render (Json.obj fs) ++ post)))) := by
    rw [List.dropWhile_cons, show isPySpace ']' = false from by decide]
    simp
  have f5 : stripLit [']'] (']' :: (' ' :: ('=' :: (' ' ::
        (render (Json.obj fs) ++ post)))))
      = some (' ' :: ('=' :: (' ' :: (render (Json.obj fs) ++ post)))) := by
    simp [stripLit]
  have hAlt1 : matchAlt1 (assignText (AssignForm.window q) ++ (render (Json.obj fs) ++ post))
      = some ((assignText (AssignForm.window q)).length) := by
    rw [hform]
    simp only [matchAlt1, f1, f2, hcond, if_true, f3, f4, f5, matchEq_at_obj]
    congr 1
    simp [assignText, windowLit, ytLit]
    omega
  rw [matchAt, hAlt1]

/-- If no position inside `pre` matches, the left-to-right search walks
past `pre` unchanged (with the index shifted accordingly). -/
theorem searchFrom_append (pre : List Char) :
    ∀ (tail : List Char) (i : Nat),
      (∀ j, j < pre.length → matchAt (List.drop j (pre ++ tail)) = none) →
      searchFrom (pre ++ tail) i = searchFrom tail (i + pre.length) := by
  induction pre with
  | nil => intro tail i _; simp
  | cons c pre ih =>
    intro tail i h
    have h0 : matchAt (c :: (pre ++ tail)) = none := by
      have := h 0 (by simp)
      simpa using this
    rw [List.cons_append, searchFrom, h0]
    have htail : ∀ j, j < pre.length → matchAt (List.drop j (pre ++ tail)) = none := by
      intro j hj
      have := h (j + 1) (by simp; omega)
      simpa [List.drop_succ_cons] using this
    rw [ih tail (i + 1) htail]
    have harg : i + 1 + pre.length = i + (c :: pre).length := by
      rw [List.length_cons]; omega
    rw [harg]

/-- A match at the head of a nonempty input ends the search. -/
theorem searchFrom_match_of_ne (s : List Char) (i off : Nat)
    (h : matchAt s = some off) (hs : ¬ s = []) :
    searchFrom s i = some (i + off) := by
  cases s with
  | nil => exact absurd rfl hs
  | cons c cs => rw [searchFrom, h]

/-- Claim C1: for every document of the shape
`pre ++ assignment ++ render (obj fs) ++ post` — where the assignment is
either `ytInitialData = ` or `window[<q>ytInitialData<q>] = ` with `q` a
single or a double quote — in which no earlier position matches the
assignment pattern, `extract_yt_initial_data` returns exactly the
serialized text of the intended object: the span on which the source
then calls `json.loads`, which parses it back to the intended object.
This holds for arbitrary nested values: string members may contain
semicolons, braces, quotes of either kind, and backslash-escaped quotes
(the scan is quote-aware and an escaped quote does not end a string). -/
theorem c1_balanced_extraction (form : AssignForm) (pre post : List Char) (fs : JsonFields)
    (hq : quoteOk form)
    (hpre : ∀ j, j < pre.length →
      matchAt (List.drop j
        (pre ++ (assignText form ++ (render (Json.obj fs) ++ post)))) = none) :
    extract_yt_initial_data (pre ++ (assignText form ++ (render (Json.obj fs) ++ post)))
      = Except.ok (render (Json.obj fs)) := by
  have hmatch : matchAt (assignText form ++ (render (Json.obj fs) ++ post))
      = some ((assignText form).length) := by
    cases form with
    | bare => exact matchAt_assign_bare fs post
    | window q => exact matchAt_assign_window q hq fs post
  have hne : ¬ (assignText form ++ (render (Json.obj fs) ++ post)) = [] := by
    cases form <;> simp [assignText, windowLit, ytLit]
  have hfind : findAssign (pre ++ (assignText form ++ (render (Json.obj fs) ++ post)))
      = some (pre.length + (assignText form).length) := by
    rw [findAssign, searchFrom_append pre _ 0 hpre,
      searchFrom_match_of_ne _ _ _ hmatch hne]
    simp
  have hdrop : List.drop (pre.length + (assignText form).length)
        (pre ++ (assignText form ++ (render (Json.obj fs) ++ post)))
      = render (Json.obj fs) ++ post := by
    rw [← List.drop_drop, List.drop_left, List.drop_left]
  rw [extract_yt_initial_data, hfind]
  simp only [hdrop, scanEnd_obj fs post, List.take_left]

/-- Claim C5: when the assignment pattern is absent the extractor fails
with the not-found error (the `ValueError` that the spec calls
`NotFoundError`), and when the assignment is found but no closing brace
ever brings the count to zero the extractor fails with the
malformed-input error (empty span handed to `json.loads`), never
returning a truncated value. -/
theorem c5_error_paths (html : List Char) :
    (findAssign html = none →
      extract_yt_initial_data html = Except.error ExtractErr.notFound) ∧
    (∀ s, findAssign html = some s → scanEnd (html.drop s) = none →
      extract_yt_initial_data html = Except.error ExtractErr.malformedJson) := by
  constructor
  · intro h
    simp [extract_yt_initial_data, h]
  · intro s h1 h2
    simp [extract_yt_initial_data, h1, h2]

/-- A concrete prefix for the C1 witness document. -/
def preW : List Char := ("<html><body>").toList

/-- A concrete suffix for the C1 witness document. -/
def postW : List Char := ("; window.x = y;").toList

/-- Concrete members for the C1 witness object: a string holding a
semicolon, both quotes, a backslash and both braces, plus a nested array. -/
def fsW : JsonFields :=
  JsonFields.cons (['k'])
    (Json.str [';', dquoteC, bslashC, lbraceC, rbraceC, squoteC])
    (JsonFields.cons (['b'])
      (Json.arr (JsonList.cons Json.null (JsonList.cons (Json.bool true) JsonList.nil)))
      JsonFields.nil)

/-- Witness for C1 at concrete documents, one for each assignment form:
the bare `ytInitialData = ` form and the `window['ytInitialData'] = `
form (single quotes). -/
theorem c1_witness :
    extract_yt_initial_data
        (preW ++ (assignText AssignForm.bare ++ (render (Json.obj fsW) ++ postW)))
      = Except.ok (render (Json.obj fsW)) ∧
    extract_yt_initial_data
        (preW ++ (assignText (AssignForm.window squoteC)
          ++ (render (Json.obj fsW) ++ postW)))
      = Except.ok (render (Json.obj fsW)) :=
  ⟨c1_balanced_extraction AssignForm.bare preW postW fsW trivial (by decide),
    c1_balanced_extraction (AssignForm.window squoteC) preW postW fsW (Or.inl rfl)
      (by decide)⟩

/-- Witness for C5 at concrete documents: one with no assignment at all,
one whose object never closes before end of document. -/
theorem c5_witness :
    extract_yt_initial_data (("<p>hello</p>").toList) = Except.error ExtractErr.notFound ∧
    extract_yt_initial_data (assignLit ++ [lbraceC, dquoteC, 'a'])
      = Except.error ExtractErr.malformedJson :=
  ⟨(c5_error_paths (("<p>hello</p>").toList)).1 (by decide),
    (c5_error_paths (assignLit ++ [lbraceC, dquoteC, 'a'])).2 16 (by decide) (by decide)⟩

/-! ### `channel.get_channel_id_from_html`: the fixed key path

Python's `data['metadata']['channelMetadataRenderer']['externalId']` is a
chain of subscript operations on the value `json.loads` produced: a `dict`
raises `KeyError` for a missing key, while subscripting any non-`dict`
JSON value (string, list, number, bool, None) with a string key raises
`TypeError`. Only `KeyError` is caught by the source and converted to
`ValueError("Channel ID not found in initial data.")` (the spec's
`IdentifierNotFoundError`). -/

/-- Python exceptions a subscript chain can raise. -/
inductive PySubscriptExc where
  | keyError
  | typeError
deriving DecidableEq

/-- First binding of a key in an object's member list (keys of a `dict`
produced by `json.loads` are unique, so any lookup convention agrees). -/
def lookupF : JsonFields → List Char → Option Json
  | JsonFields.nil, _ => none
  | JsonFields.cons k v tl, key => if k = key then some v else lookupF tl key

/-- Python `value[key]` for a string key on a JSON value. -/
def subscriptJ (j : Json) (key : List Char) : Except PySubscriptExc Json :=
  match j with
  | Json.obj fs =>
    match lookupF fs key with
    | some v => Except.ok v
    | none => Except.error PySubscriptExc.keyError
  | _ => Except.error PySubscriptExc.typeError

/-- The first path segment. -/
def metadataKey : List Char := ("metadata").toList

/-- The second path segment. -/
def cmrKey : List Char := ("channelMetadataRenderer").toList

/-- The third path segment. -/
def externalIdKey : List Char := ("externalId").toList

/-- Outcome of `get_channel_id_from_html` after a successful extraction:
either the value at the path, the converted `ValueError` (the spec's
`IdentifierNotFoundError`), or an uncaught `TypeError` escaping the
`except KeyError` handler. -/
inductive ChannelIdErr where
  | identifierNotFound
  | uncaughtTypeError
deriving DecidableEq

/-- The body of `channel.get_channel_id_from_html` after
`extract_yt_initial_data`, on the already-parsed data: evaluate the
subscript chain left to right; catch `KeyError` only. -/
def get_channel_id_from_data (data : Json) : Except ChannelIdErr Json :=
  match (subscriptJ data metadataKey).bind
      (fun m => (subscriptJ m cmrKey).bind (fun c => subscriptJ c externalIdKey)) with
  | Except.ok v => Except.ok v
  | Except.error PySubscriptExc.keyError => Except.error ChannelIdErr.identifierNotFound
  | Except.error PySubscriptExc.typeError => Except.error ChannelIdErr.uncaughtTypeError

/-- Total lookup used to state presence of the path: `none` when the key
is absent or the value is not an object. -/
def lookupJ (j : Json) (key : List Char) : Option Json :=
  match j with
  | Json.obj fs => lookupF fs key
  | _ => none

/-- The value at `metadata → channelMetadataRenderer → externalId`, when
every segment is present. -/
def channelPathValue (data : Json) : Option Json :=
  (lookupJ data metadataKey).bind
    (fun m => (lookupJ m cmrKey).bind (fun c => lookupJ c externalIdKey))

/-- Whether a value is a JSON object (a Python `dict`). -/
def isObjJ : Json → Bool
  | Json.obj _ => true
  | _ => false

/-- Subscripting succeeds exactly when the total lookup finds the key. -/
theorem subscriptJ_ok_iff (j : Json) (key : List Char) (v : Json) :
    subscriptJ j key = Except.ok v ↔ lookupJ j key = some v := by
  cases j <;> simp [subscriptJ, lookupJ]
  case obj fs =>
    cases h : lookupF fs key <;> simp [h]

/-- Subscripting an object for an absent key raises `KeyError`. -/
theorem subscriptJ_keyError (j : Json) (key : List Char)
    (hobj : isObjJ j = true) (h : lookupJ j key = none) :
    subscriptJ j key = Except.error PySubscriptExc.keyError := by
  cases j <;> simp [isObjJ] at hobj
  case obj fs =>
    simp [lookupJ] at h
    simp [subscriptJ, h]

/-- Subscripting a non-object raises `TypeError`. -/
theorem subscriptJ_typeError (j : Json) (key : List Char) (hobj : isObjJ j = false) :
    subscriptJ j key = Except.error PySubscriptExc.typeError := by
  cases j <;> simp [isObjJ] at hobj <;> simp [subscriptJ]

/-- Claim C6 as amended: when every segment of the path
`metadata → channelMetadataRenderer → externalId` is present the resolver
returns its value, and when a segment is absent — provided each
intermediate value that does exist is an object — it fails with the
identifier-not-found error; a non-object intermediate instead lets an
uncaught `TypeError` escape (see the counterexample). -/
theorem c6_path_resolution (data : Json) :
    (∀ v, channelPathValue data = some v → get_channel_id_from_data data = Except.ok v) ∧
    (isObjJ data = true →
      (∀ m, lookupJ data metadataKey = some m → isObjJ m = true) →
      (∀ m c, lookupJ data metadataKey = some m → lookupJ m cmrKey = some c →
        isObjJ c = true) →
      channelPathValue data = none →
      get_channel_id_from_data data = Except.error ChannelIdErr.identifierNotFound) := by
  constructor
  · intro v hv
    unfold channelPathValue at hv
    cases hdm : lookupJ data metadataKey with
    | none => rw [hdm] at hv; simp at hv
    | some m =>
      rw [hdm] at hv
      simp only [Option.some_bind] at hv
      cases hmc : lookupJ m cmrKey with
      | none => rw [hmc] at hv; simp at hv
      | some c =>
        rw [hmc] at hv
        simp only [Option.some_bind] at hv
        unfold get_channel_id_from_data
        rw [(subscriptJ_ok_iff data metadataKey m).mpr hdm]
        simp only [Except.bind]
        rw [(subscriptJ_ok_iff m cmrKey c).mpr hmc]
        simp only [Except.bind]
        rw [(subscriptJ_ok_iff c externalIdKey v).mpr hv]
  · intro hobj h1 h2 hnone
    unfold channelPathValue at hnone
    unfold get_channel_id_from_data
    cases hdm : lookupJ data metadataKey with
    | none =>
      rw [subscriptJ_keyError data metadataKey hobj hdm]
      rfl
    | some m =>
      rw [(subscriptJ_ok_iff data metadataKey m).mpr hdm]
      simp only [Except.bind]
      rw [hdm] at hnone
      simp only [Option.some_bind] at hnone
      cases hmc : lookupJ m cmrKey with
      | none =>
        rw [subscriptJ_keyError m cmrKey (h1 m hdm) hmc]
      | some c =>
        rw [(subscriptJ_ok_iff m cmrKey c).mpr hmc]
        simp only [Except.bind]
        rw [hmc] at hnone
        simp only [Option.some_bind] at hnone
        rw [subscriptJ_keyError c externalIdKey (h2 m c hdm hmc) hnone]

/-- Counterexample to C6 as stated: in
`obj ("metadata" : true)` the second path segment is absent, yet the
code raises an uncaught `TypeError` (subscripting a non-dict), not the
identifier-not-found error the claim promises for every absent segment. -/
theorem c6_counterexample :
    channelPathValue
        (Json.obj (JsonFields.cons metadataKey (Json.bool true) JsonFields.nil)) = none ∧
    get_channel_id_from_data
        (Json.obj (JsonFields.cons metadataKey (Json.bool true) JsonFields.nil))
      = Except.error ChannelIdErr.uncaughtTypeError ∧
    ChannelIdErr.uncaughtTypeError ≠ ChannelIdErr.identifierNotFound := by
  refine ⟨by decide, by decide, by decide⟩

/-- A fully populated `ytInitialData` for the C6 witness. -/
def dataOkW : Json :=
  Json.obj (JsonFields.cons metadataKey
    (Json.obj (JsonFields.cons cmrKey
      (Json.obj (JsonFields.cons externalIdKey (Json.str (("UC123").toList))
        JsonFields.nil))
      JsonFields.nil))
    JsonFields.nil)

/-- A `ytInitialData` whose `metadata` object is missing the renderer. -/
def dataMissW : Json :=
  Json.obj (JsonFields.cons metadataKey (Json.obj JsonFields.nil) JsonFields.nil)

/-- Witness for the amended C6 at concrete data. -/
theorem c6_witness :
    get_channel_id_from_data dataOkW = Except.ok (Json.str (("UC123").toList)) ∧
    get_channel_id_from_data dataMissW = Except.error ChannelIdErr.identifierNotFound :=
  ⟨(c6_path_resolution dataOkW).1 (Json.str (("UC123").toList)) (by decide),
    (c6_path_resolution dataMissW).2 (by decide)
      (by
        intro m hm
        simp [dataMissW, lookupJ, lookupF] at hm
        rw [← hm]
        decide)
      (by
        intro m c hm hc
        simp [dataMissW, lookupJ, lookupF] at hm
        rw [← hm] at hc
        simp [lookupJ, lookupF] at hc)
      (by decide)⟩

/-! ### `channel.Channel` and its lazy `channel_id` property

The network fetch plus parse (`get_channel_id`) is modelled as an oracle
`resolve` from the stored URL to either an error (non-200 status,
extraction failure, …) or the value Python would return — any JSON value,
since `data[...]['externalId']` can be `null`, in which case the property
assigns `None` to `self._channel_id`. The attribute `_channel_id` is a
Python value initialized to `None`; `Json.null` plays the role of `None`.
Each access returns the produced value, the post-state of the object, and
whether a fetch was performed. -/

/-- Errors the resolver can raise (contents irrelevant to the claims). -/
inductive FetchErr where
  | fetchError
deriving DecidableEq

/-- A `Channel` instance: the constructor stores the URL and sets
`self._channel_id = None`. -/
structure Channel where
  channel_url : List Char
  channel_id_attr : Json
deriving DecidableEq

/-- `Channel.__init__`. -/
def Channel.new (url : List Char) : Channel := ⟨url, Json.null⟩

/-- The `channel_id` property:

    if self._channel_id is None:
        self._channel_id = get_channel_id(self.channel_url)
    return self._channel_id

The boolean in the result records whether `get_channel_id` (a network
fetch) ran during this access. -/
def Channel.channel_id (resolve : List Char → Except FetchErr Json) (c : Channel) :
    Except FetchErr (Json × Channel × Bool) :=
  match c.channel_id_attr with
  | Json.null =>
    match resolve c.channel_url with
    | Except.ok v => Except.ok (v, ⟨c.channel_url, v⟩, true)
    | Except.error e => Except.error e
  | v => Except.ok (v, c, false)

/-- Claim C9 as amended: the handle stays unresolved until the first
access whose resolution succeeds with a non-null identifier; that access
stores the value, and every later access returns the stored value with no
further fetch; no access ever modifies the stored URL. When the resolver
yields `null` (`externalId: null` in the page JSON), the stored attribute
is `None` again — indistinguishable from the unresolved state — and the
next access fetches anew (see the counterexample). -/
theorem c9_lazy_memoization (resolve : List Char → Except FetchErr Json) (c : Channel) :
    (∀ v, c.channel_id_attr = Json.null → resolve c.channel_url = Except.ok v →
      v ≠ Json.null →
      Channel.channel_id resolve c = Except.ok (v, ⟨c.channel_url, v⟩, true) ∧
      Channel.channel_id resolve ⟨c.channel_url, v⟩ = Except.ok (v, ⟨c.channel_url, v⟩, false)) ∧
    (∀ e, c.channel_id_attr = Json.null → resolve c.channel_url = Except.error e →
      Channel.channel_id resolve c = Except.error e) ∧
    (∀ v c' f, Channel.channel_id resolve c = Except.ok (v, c', f) →
      c'.channel_url = c.channel_url) := by
  refine ⟨?_, ?_, ?_⟩
  · intro v hnull hres hv
    constructor
    · unfold Channel.channel_id
      rw [hnull, hres]
    · unfold Channel.channel_id
      cases v with
      | null => exact absurd rfl hv
      | bool b => rfl
      | num n => rfl
      | str s => rfl
      | arr xs => rfl
      | obj fs => rfl
  · intro e hnull hres
    unfold Channel.channel_id
    rw [hnull, hres]
  · intro v c' f h
    unfold Channel.channel_id at h
    cases hattr : c.channel_id_attr with
    | null =>
      rw [hattr] at h
      cases hres : resolve c.channel_url with
      | ok w => rw [hres] at h; simp at h; rw [← h.2.1]
      | error e => rw [hres] at h; simp at h
    | bool b => rw [hattr] at h; simp at h; rw [← h.2.1]
    | num n => rw [hattr] at h; simp at h; rw [← h.2.1]
    | str s => rw [hattr] at h; simp at h; rw [← h.2.1]
    | arr xs => rw [hattr] at h; simp at h; rw [← h.2.1]
    | obj fs => rw [hattr] at h; simp at h; rw [← h.2.1]

/-- Counterexample to C9 as stated: with a resolver that successfully
returns `null` (a page whose `externalId` is JSON `null`), the first
access succeeds yet leaves the handle in its unresolved state, so the
next access performs a second fetch — the access after a successful
access is not fetch-free as claimed. -/
theorem c9_counterexample :
    Channel.channel_id (fun _ => Except.ok Json.null) (Channel.new (("u").toList))
      = Except.ok (Json.null, Channel.new (("u").toList), true) ∧
    Channel.channel_id (fun _ => Except.ok Json.null) (Channel.new (("u").toList))
      ≠ Except.ok (Json.null, Channel.new (("u").toList), false) := by
  constructor
  · rfl
  · intro h
    simp [Channel.channel_id, Channel.new] at h

/-- Witness for the amended C9: a resolver returning a non-null
identifier is fetched once, stored, and reused without another fetch. -/
theorem c9_witness :
    Channel.channel_id (fun _ => Except.ok (Json.bool true)) (Channel.new (("u").toList))
      = Except.ok (Json.bool true, ⟨("u").toList, Json.bool true⟩, true) ∧
    Channel.channel_id (fun _ => Except.ok (Json.bool true)) ⟨("u").toList, Json.bool true⟩
      = Except.ok (Json.bool true, ⟨("u").toList, Json.bool true⟩, false) :=
  (c9_lazy_memoization (fun _ => Except.ok (Json.bool true))
    (Channel.new (("u").toList))).1 (Json.bool true) rfl rfl (by decide)

/-! ### `filters.Filters`, `sorting`, and the search-URL parameters

Validation bounds are the module constants; setter failures are the
`ValueError`s the source raises (carrying their messages). A successful
setter returns the updated object (Python mutates `self` only after all
checks pass, so on an exception every field is unchanged — here the
caller simply keeps the original object). -/

/-- `sorting.LicenseType`. -/
inductive LicenseType where
  | ANY
  | CREATIVE_COMMONS
  | YOUTUBE_LICENSE
deriving DecidableEq

/-- `LicenseType.value`. -/
def LicenseType.value : LicenseType → List Char
  | LicenseType.ANY => ['0']
  | LicenseType.CREATIVE_COMMONS => ['2']
  | LicenseType.YOUTUBE_LICENSE => ['1']

/-- `sorting.SortField`. -/
inductive SortField where
  | UPLOAD_DATE
  | ID
  | VIEW_COUNT
  | LIKE_COUNT
  | CHAN_RANK
  | DURATION
deriving DecidableEq

/-- `SortField.value`. -/
def SortField.value : SortField → List Char
  | SortField.UPLOAD_DATE => ("uploaddate").toList
  | SortField.ID => ("id").toList
  | SortField.VIEW_COUNT => ("viewcount").toList
  | SortField.LIKE_COUNT => ("likecount").toList
  | SortField.CHAN_RANK => ("chanrank").toList
  | SortField.DURATION => ("duration").toList

/-- `sorting.SortOrder`. -/
inductive SortOrder where
  | DESC
  | ASC
deriving DecidableEq

/-- `SortOrder.value`. -/
def SortOrder.value : SortOrder → List Char
  | SortOrder.DESC => ("desc").toList
  | SortOrder.ASC => ("asc").toList

/-- `sorting.SortOption`. -/
structure SortOption where
  field : SortField
  order : SortOrder
deriving DecidableEq

/-- `SortOption.to_dict`. -/
def SortOption.to_dict (so : SortOption) : List (List Char × List Char) :=
  [(("sortField").toList, so.field.value), (("sortOrder").toList, so.order.value)]

/-- A `datetime.date`, with its ISO rendering. -/
structure PyDate where
  year : Nat
  month : Nat
  day : Nat
deriving DecidableEq

/-- Left-pad a digit string with zeros to the given width. -/
def padZeros (w : Nat) (s : List Char) : List Char :=
  List.replicate (w - s.length) '0' ++ s

/-- `date.isoformat()`: `YYYY-MM-DD`. -/
def PyDate.isoformat (d : PyDate) : List Char :=
  padZeros 4 (natDigits d.year) ++ '-' :: (padZeros 2 (natDigits d.month)
    ++ '-' :: padZeros 2 (natDigits d.day))

/-- `filters.MIN_VIEWS`. -/
def MIN_VIEWS : Int := 0

/-- `filters.MAX_VIEWS`. -/
def MAX_VIEWS : Int := 6000000000

/-- `filters.MIN_LIKES`. -/
def MIN_LIKES : Int := 30

/-- `filters.MAX_LIKES`. -/
def MAX_LIKES : Int := 6000000000

/-- `filters.MIN_DURATION` (seconds). -/
def MIN_DURATION : Int := 1

/-- `filters.MAX_DURATION` (seconds). -/
def MAX_DURATION : Int := 86400

/-- `filters.Filters` (all fields default to `None`). -/
structure Filters where
  title : Option (List Char) := none
  views : Option (Int × Int) := none
  likes : Option (Int × Int) := none
  duration : Option (Int × Int) := none
  date_range : Option (Option PyDate × Option PyDate) := none
  license : Option LicenseType := none
deriving DecidableEq

/-- `Filters.set_views`; the error carries the `ValueError` message. -/
def Filters.set_views (f : Filters) (min_views max_views : Int) :
    Except (List Char) Filters :=
  if min_views < MIN_VIEWS then Except.error (("min_views must be >= 0").toList)
  else if max_views > MAX_VIEWS then
    Except.error (("max_views must be <= 6000000000").toList)
  else if min_views > max_views then
    Except.error (("min_views cannot be greater than max_views").toList)
  else Except.ok { f with views := some (min_views, max_views) }

/-- `Filters.set_likes`. -/
def Filters.set_likes (f : Filters) (min_likes max_likes : Int) :
    Except (List Char) Filters :=
  if min_likes < MIN_LIKES then Except.error (("min_likes must be >= 30").toList)
  else if max_likes > MAX_LIKES then
    Except.error (("max_likes must be <= 6000000000").toList)
  else if min_likes > max_likes then
    Except.error (("min_likes cannot be greater than max_likes").toList)
  else Except.ok { f with likes := some (min_likes, max_likes) }

/-- `Filters.set_duration`. -/
def Filters.set_duration (f : Filters) (start_duration end_duration : Int) :
    Except (List Char) Filters :=
  if start_duration < MIN_DURATION then
    Except.error (("start_duration must be >= 1").toList)
  else if end_duration > MAX_DURATION then
    Except.error (("end_duration must be <= 86400").toList)
  else if start_duration > end_duration then
    Except.error (("start_duration cannot be greater than end_duration").toList)
  else Except.ok { f with duration := some (start_duration, end_duration) }

/-- Claim C10: `set_views` succeeds — updating exactly the `views` field —
iff `0 ≤ a ≤ b ≤ 6000000000`; `set_likes` iff `30 ≤ a ≤ b ≤ 6000000000`;
`set_duration` iff `1 ≤ a ≤ b ≤ 86400`; and whenever validation fails a
`ValueError` is raised, so (Python assigning only after all checks) the
object is unchanged. -/
theorem c10_setter_validation (f : Filters) (a b : Int) :
    (Filters.set_views f a b = Except.ok { f with views := some (a, b) }
      ↔ (0 ≤ a ∧ a ≤ b ∧ b ≤ 6000000000)) ∧
    (¬ (0 ≤ a ∧ a ≤ b ∧ b ≤ 6000000000) →
      ∃ m, Filters.set_views f a b = Except.error m) ∧
    (Filters.set_likes f a b = Except.ok { f with likes := some (a, b) }
      ↔ (30 ≤ a ∧ a ≤ b ∧ b ≤ 6000000000)) ∧
    (¬ (30 ≤ a ∧ a ≤ b ∧ b ≤ 6000000000) →
      ∃ m, Filters.set_likes f a b = Except.error m) ∧
    (Filters.set_duration f a b = Except.ok { f with duration := some (a, b) }
      ↔ (1 ≤ a ∧ a ≤ b ∧ b ≤ 86400)) ∧
    (¬ (1 ≤ a ∧ a ≤ b ∧ b ≤ 86400) →
      ∃ m, Filters.set_duration f a b = Except.error m) := by
  unfold Filters.set_views Filters.set_likes Filters.set_duration
  unfold MIN_VIEWS MAX_VIEWS MIN_LIKES MAX_LIKES MIN_DURATION MAX_DURATION
  refine ⟨?_, ?_, ?_, ?_, ?_, ?_⟩ <;>
    [skip; intro h; skip; intro h; skip; intro h] <;>
    split_ifs with h1 h2 h3 <;>
    simp_all

/-- Witness for C10: a successful and a failing call of each setter. -/
theorem c10_witness :
    Filters.set_views {} 5 10 = Except.ok { views := some (5, 10) } ∧
    (∃ m, Filters.set_views {} 7 6 = Except.error m) ∧
    Filters.set_likes {} 30 40 = Except.ok { likes := some (30, 40) } ∧
    (∃ m, Filters.set_likes {} 0 40 = Except.error m) ∧
    Filters.set_duration {} 1 86400 = Except.ok { duration := some (1, 86400) } ∧
    (∃ m, Filters.set_duration {} 0 5 = Except.error m) :=
  ⟨(c10_setter_validation {} 5 10).1.mpr (by norm_num),
    (c10_setter_validation {} 7 6).2.1 (by norm_num),
    (c10_setter_validation {} 30 40).2.2.1.mpr (by norm_num),
    (c10_setter_validation {} 0 40).2.2.2.1 (by norm_num),
    (c10_setter_validation {} 1 86400).2.2.2.2.1.mpr (by norm_num),
    (c10_setter_validation {} 0 5).2.2.2.2.2 (by norm_num)⟩

/-- A Python value appearing in the parameter dict before `str()`
conversion: the source stores strings and ints. -/
inductive PyVal where
  | s (v : List Char)
  | i (v : Int)
deriving DecidableEq

/-- `str(v)` for the parameter values. -/
def PyVal.toStr : PyVal → List Char
  | PyVal.s v => v
  | PyVal.i v => intStr v

/-- `if self.title: data["title"] = self.title` — Python's truthiness
test drops both `None` and the empty string. -/
def titleParam : Option (List Char) → List (List Char × PyVal)
  | some t => if t = [] then [] else [(("title").toList, PyVal.s t)]
  | none => []

/-- `if self.x: data[k1], data[k2] = self.x` for the three numeric range
filters (a tuple is truthy, so any set pair is emitted). -/
def rangeParams (k1 k2 : List Char) : Option (Int × Int) → List (List Char × PyVal)
  | some (a, b) => [(k1, PyVal.i a), (k2, PyVal.i b)]
  | none => []

/-- One `date.isoformat()` entry, dropped when the date is `None`
(the source's trailing `if v is not None` filter). -/
def dateParam (k : List Char) : Option PyDate → List (List Char × PyVal)
  | some d => [(k, PyVal.s d.isoformat)]
  | none => []

/-- `if self.date_range: data["startDate"], data["endDate"] = ...`. -/
def dateRangeParams : Option (Option PyDate × Option PyDate) → List (List Char × PyVal)
  | some (d1, d2) =>
    dateParam (("startDate").toList) d1 ++ dateParam (("endDate").toList) d2
  | none => []

/-- `if self.license: data["license"] = self.license.value` (an enum
member is always truthy). -/
def licenseParam : Option LicenseType → List (List Char × PyVal)
  | some lt => [(("license").toList, PyVal.s lt.value)]
  | none => []

/-- `Filters.to_dict`: each set field under its wire name, in source
order. -/
def Filters.to_dict (f : Filters) : List (List Char × PyVal) :=
  titleParam f.title ++
  rangeParams (("startDuration").toList) (("endDuration").toList) f.duration ++
  rangeParams (("minViews").toList) (("maxViews").toList) f.views ++
  rangeParams (("minLikes").toList) (("maxLikes").toList) f.likes ++
  dateRangeParams f.date_range ++
  licenseParam f.license

/-- `if channel_id: params["channelID"] = channel_id`. -/
def channelParam : Option (List Char) → List (List Char × PyVal)
  | some cid => if cid = [] then [] else [(("channelID").toList, PyVal.s cid)]
  | none => []

/-- The parameter assembly of `YoutubeCaptionFinder._build_search_url`:
`{"gridView": 1}`, then `channelID` when truthy, then the filter dict,
then the sort dict, every value passed through `str`. The keys involved
are pairwise distinct, so this insertion-ordered list is the dict. The
percent-encoding of `urllib.parse.urlencode` and its inverse
`parse_qsl` are Python library functions outside this embedding; the
query string of the built URL carries exactly these pairs. -/
def build_search_params (channel_id : Option (List Char)) (filters : Option Filters)
    (sort_option : Option SortOption) : List (List Char × List Char) :=
  ((("gridView").toList, PyVal.i 1) ::
    channelParam channel_id ++
    (match filters with
     | some f => f.to_dict
     | none => [])).map (fun kv => (kv.1, kv.2.toStr)) ++
  (match sort_option with
   | some so => so.to_dict
   | none => [])

/-- First value bound to a key, as a query-string parse recovers it. -/
def lookupParam (ps : List (List Char × List Char)) (key : List Char) : Option (List Char) :=
  match ps with
  | [] => none
  | (k, v) :: tl => if k = key then some v else lookupParam tl key

/-- Skipping a cons whose key differs. -/
theorem lookupParam_cons_ne (a : List Char × List Char) (ys : List (List Char × List Char))
    (k : List Char) (h : a.1 ≠ k) : lookupParam (a :: ys) k = lookupParam ys k := by
  obtain ⟨ak, av⟩ := a
  simp [lookupParam]
  intro hk
  exact absurd hk h

/-- Skipping a whole segment none of whose keys is the one sought. -/
theorem lookupParam_append_ne (xs ys : List (List Char × List Char)) (k : List Char)
    (h : ∀ p ∈ xs, p.1 ≠ k) : lookupParam (xs ++ ys) k = lookupParam ys k := by
  induction xs with
  | nil => simp
  | cons a xs ih =>
    rw [List.cons_append, lookupParam_cons_ne a _ k (h a (by simp))]
    exact ih (fun p hp => h p (by simp [hp]))

/-- The `str`-conversion map preserves keys. -/
theorem keys_map_toStr (xs : List (List Char × PyVal)) (k : List Char)
    (h : ∀ p ∈ xs, p.1 ≠ k) :
    ∀ p ∈ xs.map (fun kv => (kv.1, kv.2.toStr)), p.1 ≠ k := by
  intro p hp
  obtain ⟨q, hq, rfl⟩ := List.mem_map.mp hp
  exact h q hq

/-- Keys the title segment can emit. -/
theorem titleParam_keys (t : Option (List Char)) :
    ∀ p ∈ titleParam t, p.1 = ("title").toList := by
  rcases t with _ | t
  · simp [titleParam]
  · by_cases h : t = [] <;> simp [titleParam, h]

/-- Keys a numeric-range segment can emit. -/
theorem rangeParams_keys (k1 k2 : List Char) (o : Option (Int × Int)) :
    ∀ p ∈ rangeParams k1 k2 o, p.1 = k1 ∨ p.1 = k2 := by
  rcases o with _ | ⟨a, b⟩ <;> simp [rangeParams]

/-- Keys the date-range segment can emit. -/
theorem dateRangeParams_keys (o : Option (Option PyDate × Option PyDate)) :
    ∀ p ∈ dateRangeParams o,
      p.1 = ("startDate").toList ∨ p.1 = ("endDate").toList := by
  rcases o with _ | ⟨d1, d2⟩
  · simp [dateRangeParams]
  · rcases d1 with _ | d1 <;> rcases d2 with _ | d2 <;> simp [dateRangeParams, dateParam]

/-- Keys the license segment can emit. -/
theorem licenseParam_keys (o : Option LicenseType) :
    ∀ p ∈ licenseParam o, p.1 = ("license").toList := by
  rcases o with _ | lt <;> simp [licenseParam]

/-- Keys the channel segment can emit. -/
theorem channelParam_keys (o : Option (List Char)) :
    ∀ p ∈ channelParam o, p.1 = ("channelID").toList := by
  rcases o with _ | c
  · simp [channelParam]
  · by_cases h : c = [] <;> simp [channelParam, h]

/-- Looking a key up in the built parameter list skips `gridView` and
`channelID` when the key differs from both, landing in the filter and
sort segments. -/
theorem lookupParam_build_eq (cid : Option (List Char)) (f : Filters) (so : SortOption)
    (key : List Char) (h1 : ("gridView").toList ≠ key) (h2 : ("channelID").toList ≠ key) :
    lookupParam (build_search_params cid (some f) (some so)) key
      = lookupParam ((f.to_dict.map (fun kv => (kv.1, kv.2.toStr))) ++ so.to_dict) key := by
  simp only [build_search_params, List.map_cons, List.map_append, List.cons_append,
    List.append_assoc]
  rw [lookupParam_cons_ne _ _ _ h1,
    lookupParam_append_ne _ _ _
      (keys_map_toStr _ _ (fun p hp => by rw [channelParam_keys cid p hp]; exact h2))]

/-- Claim C8 as amended: every set filter field appears in the built
query parameters under its wire name with its supplied (stringified)
value, and `sortField`/`sortOrder` carry the supplied sort choice — with
one exception, the counterexample below: a title set to the empty string
is dropped by the truthiness test, so only a non-empty title round-trips. -/
theorem c8_query_params (cid : Option (List Char)) (f : Filters) (so : SortOption) :
    (∀ t, f.title = some t → t ≠ [] →
      lookupParam (build_search_params cid (some f) (some so)) (("title").toList)
        = some t) ∧
    (∀ a b, f.duration = some (a, b) →
      lookupParam (build_search_params cid (some f) (some so)) (("startDuration").toList)
        = some (intStr a) ∧
      lookupParam (build_search_params cid (some f) (some so)) (("endDuration").toList)
        = some (intStr b)) ∧
    (∀ a b, f.views = some (a, b) →
      lookupParam (build_search_params cid (some f) (some so)) (("minViews").toList)
        = some (intStr a) ∧
      lookupParam (build_search_params cid (some f) (some so)) (("maxViews").toList)
        = some (intStr b)) ∧
    (∀ a b, f.likes = some (a, b) →
      lookupParam (build_search_params cid (some f) (some so)) (("minLikes").toList)
        = some (intStr a) ∧
      lookupParam (build_search_params cid (some f) (some so)) (("maxLikes").toList)
        = some (intStr b)) ∧
    (∀ d1 d2, f.date_range = some (some d1, some d2) →
      lookupParam (build_search_params cid (some f) (some so)) (("startDate").toList)
        = some d1.isoformat ∧
      lookupParam (build_search_params cid (some f) (some so)) (("endDate").toList)
        = some d2.isoformat) ∧
    (∀ lt, f.license = some lt →
      lookupParam (build_search_params cid (some f) (some so)) (("license").toList)
        = some lt.value) ∧
    lookupParam (build_search_params cid (some f) (some so)) (("sortField").toList)
      = some so.field.value ∧
    lookupParam (build_search_params cid (some f) (some so)) (("sortOrder").toList)
      = some so.order.value := by
  refine ⟨?_, ?_, ?_, ?_, ?_, ?_, ?_, ?_⟩
  · intro t ht hne
    rw [lookupParam_build_eq cid f so _ (by decide) (by decide)]
    simp only [Filters.to_dict, List.map_append, List.append_assoc]
    rw [ht]
    simp [titleParam, hne, lookupParam, PyVal.toStr]
  · intro a b hv
    constructor <;>
    · rw [lookupParam_build_eq cid f so _ (by decide) (by decide)]
      simp only [Filters.to_dict, List.map_append, List.append_assoc]
      rw [lookupParam_append_ne _ _ _ (keys_map_toStr _ _
          (fun p hp => by rw [titleParam_keys f.title p hp]; decide)), hv]
      simp [rangeParams, lookupParam, PyVal.toStr]
  · intro a b hv
    constructor <;>
    · rw [lookupParam_build_eq cid f so _ (by decide) (by decide)]
      simp only [Filters.to_dict, List.map_append, List.append_assoc]
      rw [lookupParam_append_ne _ _ _ (keys_map_toStr _ _
          (fun p hp => by rw [titleParam_keys f.title p hp]; decide)),
        lookupParam_append_ne _ _ _ (keys_map_toStr _ _
          (fun p hp => by
            rcases rangeParams_keys _ _ f.duration p hp with h | h <;> rw [h] <;> decide)),
        hv]
      simp [rangeParams, lookupParam, PyVal.toStr]
  · intro a b hv
    constructor <;>
    · rw [lookupParam_build_eq cid f so _ (by decide) (by decide)]
      simp only [Filters.to_dict, List.map_append, List.append_assoc]
      rw [lookupParam_append_ne _ _ _ (keys_map_toStr _ _
          (fun p hp => by rw [titleParam_keys f.title p hp]; decide)),
        lookupParam_append_ne _ _ _ (keys_map_toStr _ _
          (fun p hp => by
            rcases rangeParams_keys _ _ f.duration p hp with h | h <;> rw [h] <;> decide)),
        lookupParam_append_ne _ _ _ (keys_map_toStr _ _
          (fun p hp => by
            rcases rangeParams_keys _ _ f.views p hp with h | h <;> rw [h] <;> decide)),
        hv]
      simp [rangeParams, lookupParam, PyVal.toStr]
  · intro d1 d2 hd
    constructor <;>
    · rw [lookupParam_build_eq cid f so _ (by decide) (by decide)]
      simp only [Filters.to_dict, List.map_append, List.append_assoc]
      rw [lookupParam_append_ne _ _ _ (keys_map_toStr _ _
          (fun p hp => by rw [titleParam_keys f.title p hp]; decide)),
        lookupParam_append_ne _ _ _ (keys_map_toStr _ _
          (fun p hp => by
            rcases rangeParams_keys _ _ f.duration p hp with h | h <;> rw [h] <;> decide)),
        lookupParam_append_ne _ _ _ (keys_map_toStr _ _
          (fun p hp => by
            rcases rangeParams_keys _ _ f.views p hp with h | h <;> rw [h] <;> decide)),
        lookupParam_append_ne _ _ _ (keys_map_toStr _ _
          (fun p hp => by
            rcases rangeParams_keys _ _ f.likes p hp with h | h <;> rw [h] <;> decide)),
        hd]
      simp [dateRangeParams, dateParam, lookupParam, PyVal.toStr]
  · intro lt hl
    rw [lookupParam_build_eq cid f so _ (by decide) (by decide)]
    simp only [Filters.to_dict, List.map_append, List.append_assoc]
    rw [lookupParam_append_ne _ _ _ (keys_map_toStr _ _
        (fun p hp => by rw [titleParam_keys f.title p hp]; decide)),
      lookupParam_append_ne _ _ _ (keys_map_toStr _ _
        (fun p hp => by
          rcases rangeParams_keys _ _ f.duration p hp with h | h <;> rw [h] <;> decide)),
      lookupParam_append_ne _ _ _ (keys_map_toStr _ _
        (fun p hp => by
          rcases rangeParams_keys _ _ f.views p hp with h | h <;> rw [h] <;> decide)),
      lookupParam_append_ne _ _ _ (keys_map_toStr _ _
        (fun p hp => by
          rcases rangeParams_keys _ _ f.likes p hp with h | h <;> rw [h] <;> decide)),
      lookupParam_append_ne _ _ _ (keys_map_toStr _ _
        (fun p hp => by
          rcases dateRangeParams_keys f.date_range p hp with h | h <;> rw [h] <;> decide)),
      hl]
    simp [licenseParam, lookupParam, PyVal.toStr]
  · rw [lookupParam_build_eq cid f so _ (by decide) (by decide)]
    simp only [Filters.to_dict, List.map_append, List.append_assoc]
    rw [lookupParam_append_ne _ _ _ (keys_map_toStr _ _
        (fun p hp => by rw [titleParam_keys f.title p hp]; decide)),
      lookupParam_append_ne _ _ _ (keys_map_toStr _ _
        (fun p hp => by
          rcases rangeParams_keys _ _ f.duration p hp with h | h <;> rw [h] <;> decide)),
      lookupParam_append_ne _ _ _ (keys_map_toStr _ _
        (fun p hp => by
          rcases rangeParams_keys _ _ f.views p hp with h | h <;> rw [h] <;> decide)),
      lookupParam_append_ne _ _ _ (keys_map_toStr _ _
        (fun p hp => by
          rcases rangeParams_keys _ _ f.likes p hp with h | h <;> rw [h] <;> decide)),
      lookupParam_append_ne _ _ _ (keys_map_toStr _ _
        (fun p hp => by
          rcases dateRangeParams_keys f.date_range p hp with h | h <;> rw [h] <;> decide)),
      lookupParam_append_ne _ _ _ (keys_map_toStr _ _
        (fun p hp => by rw [licenseParam_keys f.license p hp]; decide))]
    simp [SortOption.to_dict, lookupParam]
  · rw [lookupParam_build_eq cid f so _ (by decide) (by decide)]
    simp only [Filters.to_dict, List.map_append, List.append_assoc]
    rw [lookupParam_append_ne _ _ _ (keys_map_toStr _ _
        (fun p hp => by rw [titleParam_keys f.title p hp]; decide)),
      lookupParam_append_ne _ _ _ (keys_map_toStr _ _
        (fun p hp => by
          rcases rangeParams_keys _ _ f.duration p hp with h | h <;> rw [h] <;> decide)),
      lookupParam_append_ne _ _ _ (keys_map_toStr _ _
        (fun p hp => by
          rcases rangeParams_keys _ _ f.views p hp with h | h <;> rw [h] <;> decide)),
      lookupParam_append_ne _ _ _ (keys_map_toStr _ _
        (fun p hp => by
          rcases rangeParams_keys _ _ f.likes p hp with h | h <;> rw [h] <;> decide)),
      lookupParam_append_ne _ _ _ (keys_map_toStr _ _
        (fun p hp => by
          rcases dateRangeParams_keys f.date_range p hp with h | h <;> rw [h] <;> decide)),
      lookupParam_append_ne _ _ _ (keys_map_toStr _ _
        (fun p hp => by rw [licenseParam_keys f.license p hp]; decide))]
    simp [SortOption.to_dict, lookupParam]

/-- Counterexample to C8 as stated: a title set to the empty string is a
set filter field, yet the built query parameters contain no `title` key
at all (`if self.title:` is false for the empty string). -/
theorem c8_counterexample :
    ({ title := some [] } : Filters).title = some [] ∧
    lookupParam (build_search_params none (some { title := some [] }) none)
      (("title").toList) = none := by
  constructor
  · rfl
  · decide

/-- A fully populated filter configuration for the C8 witness. -/
def fFullW : Filters :=
  { title := some (("q").toList), views := some (5, 10), likes := some (30, 40),
    duration := some (1, 2),
    date_range := some (some ⟨2020, 1, 2⟩, some ⟨2021, 3, 4⟩),
    license := some LicenseType.CREATIVE_COMMONS }

/-- The sort choice for the C8 witness. -/
def soW : SortOption := ⟨SortField.VIEW_COUNT, SortOrder.ASC⟩

/-- Witness for the amended C8 at a concrete configuration. -/
theorem c8_witness :
    lookupParam (build_search_params none (some fFullW) (some soW)) (("title").toList)
      = some (("q").toList) ∧
    lookupParam (build_search_params none (some fFullW) (some soW)) (("minViews").toList)
      = some (intStr 5) ∧
    lookupParam (build_search_params none (some fFullW) (some soW)) (("startDate").toList)
      = some (PyDate.isoformat ⟨2020, 1, 2⟩) ∧
    lookupParam (build_search_params none (some fFullW) (some soW)) (("license").toList)
      = some (LicenseType.CREATIVE_COMMONS.value) ∧
    lookupParam (build_search_params none (some fFullW) (some soW)) (("sortField").toList)
      = some (SortField.VIEW_COUNT.value) ∧
    lookupParam (build_search_params none (some fFullW) (some soW)) (("sortOrder").toList)
      = some (SortOrder.ASC.value) :=
  ⟨(c8_query_params none fFullW soW).1 (("q").toList) rfl (by decide),
    ((c8_query_params none fFullW soW).2.2.1 5 10 rfl).1,
    ((c8_query_params none fFullW soW).2.2.2.2.1 ⟨2020, 1, 2⟩ ⟨2021, 3, 4⟩ rfl).1,
    (c8_query_params none fFullW soW).2.2.2.2.2.1 LicenseType.CREATIVE_COMMONS rfl,
    (c8_query_params none fFullW soW).2.2.2.2.2.2.1,
    (c8_query_params none fFullW soW).2.2.2.2.2.2.2⟩

/-! ### `video.VideoInfo` -/

/-- `video.VideoInfo`: one parsed result card; every field is optional. -/
structure VideoInfo where
  vcard_id : Option (List Char)
  idx : Option (List Char)
  video_id : Option (List Char)
  thumbnail_url : Option (List Char)
  video_link : Option (List Char)
  title : Option (List Char)
  channel : Option (List Char)
  views : Option (List Char)
  likes : Option (List Char)
  upload_date : Option (List Char)
  language : Option (List Char)
  scroll_text : Option (List Char)
deriving DecidableEq

/-! ### `client.YoutubeCaptionFinder.search_all`: lazy pagination

The page fetch-and-parse (`self._search_page(...)`) is an oracle from the
page number to that page's parsed records; the generator loop

    page_id = 1
    while True:
        videos = self._search_page(..., page_id)
        if not videos: break
        for video in videos: yield video
        page_id += 1

is modelled with a fuel bound (the loop itself has no other bound: the
first empty page is the sole termination signal). -/
def search_all_aux (pages : Nat → List VideoInfo) : Nat → Nat → List VideoInfo
  | 0, _ => []
  | fuel + 1, page_id =>
    let videos := pages page_id
    if videos.isEmpty then [] else videos ++ search_all_aux pages fuel (page_id + 1)

/-- The concatenation of `cnt` consecutive pages starting at `start`, in
page order then within-page order. -/
def sliceConcat (pages : Nat → List VideoInfo) : Nat → Nat → List VideoInfo
  | _, 0 => []
  | start, cnt + 1 => pages start ++ sliceConcat pages (start + 1) cnt

/-- Claim C7: when page `N` is the first empty page, the iteration yields
exactly the concatenation of pages `1 .. N-1` in order and stops; with
enough fuel the result no longer depends on the fuel, i.e. the loop has
terminated via the empty-page signal. -/
theorem c7_pagination (pages : Nat → List VideoInfo) (N fuel : Nat)
    (hN1 : 1 ≤ N) (hN : pages N = [])
    (hfirst : ∀ k, 1 ≤ k → k < N → pages k ≠ []) (hfuel : N ≤ fuel) :
    search_all_aux pages fuel 1 = sliceConcat pages 1 (N - 1) := by
  suffices h : ∀ fuel start, 1 ≤ start → start ≤ N → N - start < fuel →
      search_all_aux pages fuel start = sliceConcat pages start (N - start) by
    exact h fuel 1 le_rfl hN1 (by omega)
  intro fuel
  induction fuel with
  | zero => intro start _ _ hlt; omega
  | succ fuel ih =>
    intro start h1 hle hlt
    by_cases hsN : start = N
    · subst hsN
      rw [search_all_aux]
      simp [hN, sliceConcat]
    · have hslt : start < N := by omega
      have hne : pages start ≠ [] := hfirst start h1 hslt
      rw [search_all_aux]
      simp only [List.isEmpty_iff]
      rw [if_neg hne, ih (start + 1) (by omega) (by omega) (by omega)]
      have hcnt : N - start = (N - (start + 1)) + 1 := by omega
      rw [hcnt, sliceConcat]

/-- A record with no data, for the C7 witness pages. -/
def blankInfo : VideoInfo :=
  ⟨none, none, none, none, none, none, none, none, none, none, none, none⟩

/-- Witness for C7: three pages then an empty one. -/
theorem c7_witness :
    search_all_aux
        (fun k => if k ≤ 3 then List.replicate k blankInfo else []) 10 1
      = sliceConcat (fun k => if k ≤ 3 then List.replicate k blankInfo else []) 1 3 :=
  c7_pagination (fun k => if k ≤ 3 then List.replicate k blankInfo else []) 4 10
    (by norm_num) (by norm_num)
    (by
      intro k hk1 hk4
      have : k ≤ 3 := by omega
      simp [this]
      omega)
    (by norm_num)

/-! ### The DOM model for `extractor.VideoInfoExtractor`

BeautifulSoup's parse tree is a forest of nodes; `find_all` walks the
descendants in document (pre-order) order. Attribute lists keep the
first binding of a name, as `html.parser` does. Class matching splits
the `class` attribute on whitespace and tests membership. `get_text`
with `strip=True` joins the stripped non-empty descendant strings with
the separator, and Python's bare `str.split` splits on whitespace runs
dropping empties. -/

/-- A DOM node: an element with tag, attributes and children, or text. -/
inductive Node where
  | elem (tag : List Char) (attrs : List (List Char × List Char)) (children : List Node)
  | text (s : List Char)

/-- The children of a node (text nodes have none). -/
def Node.childrenOf : Node → List Node
  | Node.elem _ _ cs => cs
  | Node.text _ => []

/-- First binding of an attribute, Python `tag.get(name)`. -/
def getAttr (n : Node) (key : List Char) : Option (List Char) :=
  match n with
  | Node.text _ => none
  | Node.elem _ attrs _ =>
    match attrs.find? (fun kv => kv.1 = key) with
    | some kv => some kv.2
    | none => none

/-- Whether a node is an element with the given tag. -/
def tagIs (n : Node) (t : List Char) : Bool :=
  match n with
  | Node.elem tag _ _ => tag = t
  | Node.text _ => false

/-- Python `str.split()` with no argument: split on whitespace runs,
dropping empty pieces. `acc` is the current word, reversed. -/
def pySplitWSAux : List Char → List Char → List (List Char)
  | [], acc => if acc = [] then [] else [acc.reverse]
  | c :: cs, acc =>
    if isPySpace c then
      if acc = [] then pySplitWSAux cs [] else acc.reverse :: pySplitWSAux cs []
    else pySplitWSAux cs (c :: acc)

/-- Python `str.split()`. -/
def pySplitWS (s : List Char) : List (List Char) := pySplitWSAux s []

/-- Python `str.strip()`: drop leading and trailing whitespace. -/
def pyStrip (s : List Char) : List Char :=
  (((s.dropWhile isPySpace).reverse).dropWhile isPySpace).reverse

/-- Python `sep.join(parts)`. -/
def joinSep (sep : List Char) : List (List Char) → List Char
  | [] => []
  | [x] => x
  | x :: xs => x ++ sep ++ joinSep sep xs

/-- BeautifulSoup class matching: the `class` attribute split on
whitespace contains the sought class. -/
def hasClass (n : Node) (cls : List Char) : Bool :=
  match getAttr n (("class").toList) with
  | some v => (pySplitWS v).contains cls
  | none => false

mutual

/-- All matching elements in a forest, in document (pre-order) order. -/
def findAllList : List Node → (Node → Bool) → List Node
  | [], _ => []
  | n :: tl, p => findAllNode n p ++ findAllList tl p

/-- A node itself (when it matches) followed by its matching descendants. -/
def findAllNode : Node → (Node → Bool) → List Node
  | Node.text _, _ => []
  | Node.elem tag attrs cs, p =>
    (if p (Node.elem tag attrs cs) then [Node.elem tag attrs cs] else []) ++
      findAllList cs p

end

/-- `tag.find_all(...)`: matches among the descendants of `n`. -/
def findAllIn (n : Node) (p : Node → Bool) : List Node := findAllList n.childrenOf p

/-- `tag.find(...)`: the first descendant match in document order. -/
def findFirst (n : Node) (p : Node → Bool) : Option Node := (findAllIn n p).head?

mutual

/-- The strings of the text nodes of a forest, in document order. -/
def stringsList : List Node → List (List Char)
  | [] => []
  | n :: tl => stringsNode n ++ stringsList tl

/-- The strings of the text nodes under a node. -/
def stringsNode : Node → List (List Char)
  | Node.text s => [s]
  | Node.elem _ _ cs => stringsList cs

end

/-- `tag.get_text(separator=sep, strip=True)`: stripped, non-empty
descendant strings joined by the separator. -/
def getTextStrip (n : Node) (sep : List Char) : List Char :=
  joinSep sep (((stringsNode n).map pyStrip).filter (fun s => ¬ s = []))

/-- Python's substring test `pat in hay`. -/
def containsSub (pat : List Char) : List Char → Bool
  | [] => pat.isPrefixOf []
  | c :: t => pat.isPrefixOf (c :: t) || containsSub pat t

/-- Python's `str.isalpha`, restricted to ASCII letters for this model. -/
def pyIsAlpha (c : Char) : Bool :=
  ('a' ≤ c && c ≤ 'z') || ('A' ≤ c && c ≤ 'Z')

/-- The uncaught runtime exception of the extractor: calling `.split()`
on `None`. -/
inductive PyRuntimeErr where
  | attributeError
deriving DecidableEq

/-- Does the badge span contain an eye icon (`span.find("i", class_="fa-eye")`)? -/
def hasEyeIcon (span : Node) : Bool :=
  (findFirst span (fun n => tagIs n (("i").toList) && hasClass n (("fa-eye").toList))).isSome

/-- Does the badge span contain a thumbs-up icon? -/
def hasThumbsIcon (span : Node) : Bool :=
  (findFirst span
    (fun n => tagIs n (("i").toList) && hasClass n (("fa-thumbs-up").toList))).isSome

/-- The accumulator of the badge-classification loop. -/
structure BadgeAcc where
  views : Option (List Char)
  likes : Option (List Char)
  upload_date : Option (List Char)
deriving DecidableEq

/-- One iteration of the badge loop:

    if span.find("i", class_="fa-eye"): views = span.get_text(strip=True)
    elif span.find("i", class_="fa-thumbs-up"): likes = ...
    else:
        text = span.get_text(strip=True)
        if text and any(char.isalpha() for char in text): upload_date = text
-/
def badgeStep (acc : BadgeAcc) (span : Node) : BadgeAcc :=
  if hasEyeIcon span then { acc with views := some (getTextStrip span []) }
  else if hasThumbsIcon span then { acc with likes := some (getTextStrip span []) }
  else
    let text := getTextStrip span []
    if ¬ text = [] && text.any pyIsAlpha then { acc with upload_date := some text }
    else acc

/-- The whole badge loop over the card's badge spans. -/
def badgeFold (spans : List Node) : BadgeAcc :=
  spans.foldl badgeStep ⟨none, none, none⟩

/-- The predicate selecting badge spans: `span` tag with class `badge`. -/
def isBadgeSpan (n : Node) : Bool :=
  tagIs n (("span").toList) && hasClass n (("badge").toList)

/-- `VideoInfoExtractor.extract`'s per-card body, line for line. The only
operation that can raise is the final `" ".join(scroll_text.split())`,
which is applied even when the scroll box was absent and `scroll_text`
is `None` — an `AttributeError` on `None.split()`. -/
def extractCard (card : Node) : Except PyRuntimeErr VideoInfo :=
  let vcard_id := getAttr card (("id").toList)
  let idx := getAttr card (("idx").toList)
  let fullpage_anchor := findFirst card
    (fun n => tagIs n (("a").toList) && hasClass n (("fullpagelnk").toList))
  let video_id := fullpage_anchor.bind (fun a => getAttr a (("vid").toList))
  let thumb_img := findFirst card
    (fun n => tagIs n (("img").toList) && hasClass n (("thumb-image").toList))
  let thumbnail_url := thumb_img.bind (fun a => getAttr a (("src").toList))
  let yt_anchor := findFirst card
    (fun n => tagIs n (("a").toList) &&
      (match getAttr n (("href").toList) with
       | some h => containsSub (("youtube.com/watch").toList) h
       | none => false))
  let video_link := yt_anchor.bind (fun a => getAttr a (("href").toList))
  let title_div := findFirst card
    (fun n => tagIs n (("div").toList) && hasClass n (("d-inline").toList))
  let title := title_div.map (fun d => getTextStrip d [])
  let channel_anchor := findFirst card
    (fun n => tagIs n (("a").toList) &&
      (match getAttr n (("href").toList) with
       | some h => (("/channel/").toList).isPrefixOf h
       | none => false))
  let channel := channel_anchor.map (fun a => getTextStrip a [])
  let badges := findAllIn card isBadgeSpan
  let acc := badgeFold badges
  let lang_anchor := findFirst card
    (fun n => tagIs n (("a").toList) &&
      (match getAttr n (("href").toList) with
       | some h => containsSub (("/sidebyside").toList) h
       | none => false))
  let language := lang_anchor.bind (fun la =>
    (findFirst la (fun n => tagIs n (("img").toList))).bind
      (fun img => getAttr img (("alt").toList)))
  let scroll_box := findFirst card
    (fun n => tagIs n (("div").toList) && hasClass n (("scroll-box").toList))
  match scroll_box.map (fun sb => getTextStrip sb [nlC]) with
  | none => Except.error PyRuntimeErr.attributeError
  | some st =>
    Except.ok
      { vcard_id := vcard_id, idx := idx, video_id := video_id,
        thumbnail_url := thumbnail_url, video_link := video_link, title := title,
        channel := channel, views := acc.views, likes := acc.likes,
        upload_date := acc.upload_date, language := language,
        scroll_text := some (joinSep [' '] (pySplitWS st)) }

/-- The matching rule for result cards:
`soup.find_all("div", id=lambda x: x and x.startswith("vcard"))`. -/
def isVcard (n : Node) : Bool :=
  tagIs n (("div").toList) &&
    (match getAttr n (("id").toList) with
     | some x => (("vcard").toList).isPrefixOf x
     | none => false)

/-- The `for card in cards:` loop: records in order, first raised
exception aborts the whole extraction. -/
def extractCards : List Node → Except PyRuntimeErr (List VideoInfo)
  | [] => Except.ok []
  | c :: cs =>
    match extractCard c with
    | Except.error e => Except.error e
    | Except.ok r =>
      match extractCards cs with
      | Except.error e => Except.error e
      | Except.ok rs => Except.ok (r :: rs)

/-- `VideoInfoExtractor.extract` on a parsed document (a forest). -/
def VideoInfoExtractor.extract (doc : List Node) : Except PyRuntimeErr (List VideoInfo) :=
  extractCards (findAllList doc isVcard)

/-- The last element of a list satisfying a predicate. -/
def lastWith (p : Node → Bool) (l : List Node) : Option Node := (l.filter p).getLast?

/-- The classification a badge receives in the `else` branch: non-empty
stripped text containing at least one alphabetic character. -/
def isDateText (s : Node) : Bool :=
  ¬ getTextStrip s [] = [] && (getTextStrip s []).any pyIsAlpha

/-- Badge step on an eye-icon badge. -/
theorem badgeStep_eye (acc : BadgeAcc) (x : Node) (he : hasEyeIcon x = true) :
    badgeStep acc x = { acc with views := some (getTextStrip x []) } := by
  simp [badgeStep, he]

/-- Badge step on a thumbs-up badge without an eye icon. -/
theorem badgeStep_thumb (acc : BadgeAcc) (x : Node) (he : hasEyeIcon x = false)
    (ht : hasThumbsIcon x = true) :
    badgeStep acc x = { acc with likes := some (getTextStrip x []) } := by
  simp [badgeStep, he, ht]

/-- Badge step on an icon-free badge with date-like text. -/
theorem badgeStep_date (acc : BadgeAcc) (x : Node) (he : hasEyeIcon x = false)
    (ht : hasThumbsIcon x = false) (hd : isDateText x = true) :
    badgeStep acc x = { acc with upload_date := some (getTextStrip x []) } := by
  have hd' : (¬ getTextStrip x [] = [] && (getTextStrip x []).any pyIsAlpha) = true := hd
  unfold badgeStep
  simp only [he, ht, hd', Bool.false_eq_true, if_false, if_true]

/-- Badge step on a badge matching no class: no field changes. -/
theorem badgeStep_skip (acc : BadgeAcc) (x : Node) (he : hasEyeIcon x = false)
    (ht : hasThumbsIcon x = false) (hd : isDateText x = false) :
    badgeStep acc x = acc := by
  have hd' : (¬ getTextStrip x [] = [] && (getTextStrip x []).any pyIsAlpha) = false := hd
  unfold badgeStep
  simp only [he, ht, hd', Bool.false_eq_true, if_false, if_true]

/-- What the badge loop computes: since each branch overwrites its field
unconditionally, every field ends up holding the text of the LAST badge
of its class in document order — eye-icon badges set `views`, badges
with a thumbs-up (and no eye) set `likes`, and of the remaining badges
those with alphabetic text set `upload_date`. -/
theorem badgeFold_spec (spans : List Node) :
    (badgeFold spans).views
        = (lastWith hasEyeIcon spans).map (fun s => getTextStrip s []) ∧
    (badgeFold spans).likes
        = (lastWith (fun s => !hasEyeIcon s && hasThumbsIcon s) spans).map
            (fun s => getTextStrip s []) ∧
    (badgeFold spans).upload_date
        = (lastWith (fun s => !hasEyeIcon s && !hasThumbsIcon s && isDateText s) spans).map
            (fun s => getTextStrip s []) := by
  induction spans using List.reverseRecOn with
  | nil => simp [badgeFold, lastWith]
  | append_singleton l x ih =>
    obtain ⟨ihv, ihl, ihu⟩ := ih
    unfold badgeFold at ihv ihl ihu ⊢
    rw [List.foldl_append]
    simp only [List.foldl_cons, List.foldl_nil]
    by_cases he : hasEyeIcon x
    · rw [badgeStep_eye _ x he]
      refine ⟨?_, ?_, ?_⟩
      · simp [lastWith, List.filter_append, he]
      · rw [show ({ List.foldl badgeStep ⟨none, none, none⟩ l with
              views := some (getTextStrip x []) } : BadgeAcc).likes
            = (List.foldl badgeStep ⟨none, none, none⟩ l).likes from rfl, ihl]
        simp [lastWith, List.filter_append, he]
      · rw [show ({ List.foldl badgeStep ⟨none, none, none⟩ l with
              views := some (getTextStrip x []) } : BadgeAcc).upload_date
            = (List.foldl badgeStep ⟨none, none, none⟩ l).upload_date from rfl, ihu]
        simp [lastWith, List.filter_append, he]
    · have he' : hasEyeIcon x = false := by simpa using he
      by_cases ht : hasThumbsIcon x
      · rw [badgeStep_thumb _ x he' ht]
        refine ⟨?_, ?_, ?_⟩
        · rw [show ({ List.foldl badgeStep ⟨none, none, none⟩ l with
                likes := some (getTextStrip x []) } : BadgeAcc).views
              = (List.foldl badgeStep ⟨none, none, none⟩ l).views from rfl, ihv]
          simp [lastWith, List.filter_append, he']
        · simp [lastWith, List.filter_append, he', ht]
        · rw [show ({ List.foldl badgeStep ⟨none, none, none⟩ l with
                likes := some (getTextStrip x []) } : BadgeAcc).upload_date
              = (List.foldl badgeStep ⟨none, none, none⟩ l).upload_date from rfl, ihu]
          simp [lastWith, List.filter_append, he', ht]
      · have ht' : hasThumbsIcon x = false := by simpa using ht
        by_cases hd : isDateText x
        · rw [badgeStep_date _ x he' ht' hd]
          refine ⟨?_, ?_, ?_⟩
          · rw [show ({ List.foldl badgeStep ⟨none, none, none⟩ l with
                  upload_date := some (getTextStrip x []) } : BadgeAcc).views
                = (List.foldl badgeStep ⟨none, none, none⟩ l).views from rfl, ihv]
            simp [lastWith, List.filter_append, he']
          · rw [show ({ List.foldl badgeStep ⟨none, none, none⟩ l with
                  upload_date := some (getTextStrip x []) } : BadgeAcc).likes
                = (List.foldl badgeStep ⟨none, none, none⟩ l).likes from rfl, ihl]
            simp [lastWith, List.filter_append, he', ht']
          · simp [lastWith, List.filter_append, he', ht', hd]
        · have hd' : isDateText x = false := by simpa using hd
          rw [badgeStep_skip _ x he' ht' hd']
          refine ⟨?_, ?_, ?_⟩
          · rw [ihv]
            simp [lastWith, List.filter_append, he']
          · rw [ihl]
            simp [lastWith, List.filter_append, he', ht']
          · rw [ihu]
            simp [lastWith, List.filter_append, he', ht', hd']

/-- Claim C3 as amended: for every card that yields a record, an
eye-icon badge sets `views`, a thumbs-up badge (without an eye icon)
sets `likes`, and among the remaining badges whose stripped text is
non-empty and contains an alphabetic character, the LAST such badge in
document order determines `upload_date` (each loop iteration overwrites
the field, so the last match wins, not the first); with at most one
badge of each class — as in the claim's example — the classification is
therefore correct regardless of the badges' order in the markup. -/
theorem c3_badge_classification (card : Node) (r : VideoInfo)
    (h : extractCard card = Except.ok r) :
    r.views = (lastWith hasEyeIcon (findAllIn card isBadgeSpan)).map
        (fun s => getTextStrip s []) ∧
    r.likes = (lastWith (fun s => !hasEyeIcon s && hasThumbsIcon s)
        (findAllIn card isBadgeSpan)).map (fun s => getTextStrip s []) ∧
    r.upload_date = (lastWith (fun s => !hasEyeIcon s && !hasThumbsIcon s && isDateText s)
        (findAllIn card isBadgeSpan)).map (fun s => getTextStrip s []) := by
  simp only [extractCard] at h
  cases hsb : findFirst card
      (fun n => tagIs n (("div").toList) && hasClass n (("scroll-box").toList)) with
  | none =>
    rw [hsb] at h
    simp at h
  | some sb =>
    rw [hsb] at h
    simp only [Option.map_some'] at h
    injection h with h2
    rw [← h2]
    exact ⟨(badgeFold_spec _).1, (badgeFold_spec _).2.1, (badgeFold_spec _).2.2⟩

/-- A badge span with the given children. -/
def mkBadge (cs : List Node) : Node :=
  Node.elem (("span").toList) [((("class").toList), (("badge").toList))] cs

/-- A scroll-box div with a text snippet. -/
def mkScroll (s : List Char) : Node :=
  Node.elem (("div").toList) [((("class").toList), (("scroll-box").toList))] [Node.text s]

/-- A card holding two icon-free alphabetic badges and a scroll box. -/
def cardTwoDates : Node :=
  Node.elem (("div").toList) [((("id").toList), (("vcard7").toList))]
    [mkBadge [Node.text (("January first").toList)],
     mkBadge [Node.text (("February second").toList)],
     mkScroll (("snip").toList)]

/-- Counterexample to C3 as stated: with two date-like badges the parser
reports the LAST one, not the first match in document order that the
claim promises. -/
theorem c3_counterexample :
    (VideoInfoExtractor.extract [cardTwoDates]).toOption.map
        (fun rs => rs.map (fun r => r.upload_date))
      = some [some (("February second").toList)] ∧
    ¬ (("February second").toList = ("January first").toList) := by
  refine ⟨by decide, by decide⟩

/-- An eye icon element (`<i class="fas fa-eye">`). -/
def eyeIconW : Node :=
  Node.elem (("i").toList) [((("class").toList), (("fas fa-eye").toList))] []

/-- A thumbs-up icon element. -/
def thumbsIconW : Node :=
  Node.elem (("i").toList) [((("class").toList), (("fas fa-thumbs-up").toList))] []

/-- The claim's example card, with the badges deliberately out of order:
date badge first, then likes, then views. -/
def cardExampleW : Node :=
  Node.elem (("div").toList) [((("id").toList), (("vcard1").toList))]
    [mkBadge [Node.text (("Jan 1, 2020").toList)],
     mkBadge [thumbsIconW, Node.text (("56").toList)],
     mkBadge [eyeIconW, Node.text (("1,234").toList)],
     mkScroll (("snip").toList)]

/-- The record `extractCard` produces for `cardExampleW`. -/
def recExampleW : VideoInfo :=
  { vcard_id := some (("vcard1").toList), idx := none, video_id := none,
    thumbnail_url := none, video_link := none, title := none, channel := none,
    views := some (("1,234").toList), likes := some (("56").toList),
    upload_date := some (("Jan 1, 2020").toList), language := none,
    scroll_text := some (("snip").toList) }

/-- Witness for the amended C3: on the claim's example card, in scrambled
badge order, the three badges are classified correctly. -/
theorem c3_witness :
    recExampleW.views = (lastWith hasEyeIcon (findAllIn cardExampleW isBadgeSpan)).map
        (fun s => getTextStrip s []) ∧
    recExampleW.likes = (lastWith (fun s => !hasEyeIcon s && hasThumbsIcon s)
        (findAllIn cardExampleW isBadgeSpan)).map (fun s => getTextStrip s []) ∧
    recExampleW.upload_date
        = (lastWith (fun s => !hasEyeIcon s && !hasThumbsIcon s && isDateText s)
            (findAllIn cardExampleW isBadgeSpan)).map (fun s => getTextStrip s []) :=
  c3_badge_classification cardExampleW recExampleW (by decide)

/-- A matched card with no children at all: every optional sub-element,
including the scroll box, is missing. -/
def bareCardC2 : Node :=
  Node.elem (("div").toList) [((("id").toList), (("vcard1").toList))] []

/-- Claim C2, evaluated at the failing input: a card missing every
optional sub-element is matched (it is the only card), yet extraction
raises `AttributeError` instead of producing one all-unknown record —
`scroll_text` is `None` when the scroll box is absent, and the very next
line calls `None.split()`. -/
theorem c2_scroll_box_crash :
    (findAllList [bareCardC2] isVcard).length = 1 ∧
    VideoInfoExtractor.extract [bareCardC2]
      = Except.error PyRuntimeErr.attributeError := by
  refine ⟨by decide, by decide⟩

/-- `extractCard` cannot fail on a card that has a scroll box. -/
theorem extractCard_ok_of_scroll (c : Node)
    (h : (findFirst c
      (fun n => tagIs n (("div").toList) && hasClass n (("scroll-box").toList))).isSome) :
    ∃ r, extractCard c = Except.ok r := by
  simp only [extractCard]
  cases hsb : findFirst c
      (fun n => tagIs n (("div").toList) && hasClass n (("scroll-box").toList)) with
  | none => rw [hsb] at h; simp at h
  | some sb =>
    exact ⟨_, rfl⟩

/-- The card loop on a list of cards that all succeed: one record per
card, in order. -/
theorem extractCards_all_ok (cs : List Node)
    (h : ∀ c ∈ cs, ∃ r, extractCard c = Except.ok r) :
    ∃ rs, extractCards cs = Except.ok rs ∧ rs.length = cs.length ∧
      ∀ i (h1 : i < cs.length) (h2 : i < rs.length),
        extractCard (cs.get ⟨i, h1⟩) = Except.ok (rs.get ⟨i, h2⟩) := by
  induction cs with
  | nil =>
    refine ⟨[], rfl, rfl, ?_⟩
    intro i h1 _
    exact absurd h1 (by simp)
  | cons c cs ih =>
    obtain ⟨r, hr⟩ := h c (by simp)
    obtain ⟨rs, hrs, hlen, hidx⟩ := ih (fun x hx => h x (by simp [hx]))
    refine ⟨r :: rs, ?_, by simp [hlen], ?_⟩
    · rw [extractCards, hr, hrs]
    · intro i h1 h2
      cases i with
      | zero => simpa using hr
      | succ n =>
        simp only [List.get_cons_succ]
        exact hidx n (by simpa using h1) (by simpa using h2)

/-- Claim C4 as amended: for every document in which each matched card
contains a scroll box (without one the parser raises — see C2), the
parser returns exactly one record per element whose id attribute begins
with `vcard`, in document order: the i-th record is extracted from the
i-th matched card. A document with no matching card yields the empty
sequence (the hypothesis is vacuous and the card list is empty). -/
theorem c4_one_record_per_card (doc : List Node)
    (h : ∀ c ∈ findAllList doc isVcard, (findFirst c
      (fun n => tagIs n (("div").toList) && hasClass n (("scroll-box").toList))).isSome) :
    ∃ rs, VideoInfoExtractor.extract doc = Except.ok rs ∧
      rs.length = (findAllList doc isVcard).length ∧
      ∀ i (h1 : i < (findAllList doc isVcard).length) (h2 : i < rs.length),
        extractCard ((findAllList doc isVcard).get ⟨i, h1⟩) = Except.ok (rs.get ⟨i, h2⟩) := by
  exact extractCards_all_ok _ (fun c hc => extractCard_ok_of_scroll c (h c hc))

/-- A matched card lacking a scroll box, distinct from the C2 input. -/
def bareCardC4 : Node :=
  Node.elem (("div").toList)
    [((("id").toList), (("vcard9").toList)), ((("idx").toList), (("9").toList))] []

/-- Counterexample to C4 as stated: a document with exactly one matched
card does not return one record — extraction raises instead, because the
card lacks a scroll box. -/
theorem c4_counterexample :
    (findAllList [bareCardC4] isVcard).length = 1 ∧
    VideoInfoExtractor.extract [bareCardC4]
      = Except.error PyRuntimeErr.attributeError := by
  refine ⟨by decide, by decide⟩

/-- A two-card document (one card nested inside a wrapper) for the C4
witness. -/
def docTwoCardsW : List Node :=
  [Node.elem (("div").toList) []
      [cardExampleW,
       Node.text ((" between ").toList),
       Node.elem (("div").toList) [((("id").toList), (("vcard2").toList))]
         [mkScroll (("s2").toList)]],
   Node.elem (("p").toList) [] [Node.text (("after").toList)]]

/-- Witness for the amended C4 at a concrete two-card document. -/
theorem c4_witness :
    ∃ rs, VideoInfoExtractor.extract docTwoCardsW = Except.ok rs ∧
      rs.length = (findAllList docTwoCardsW isVcard).length ∧
      ∀ i (h1 : i < (findAllList docTwoCardsW isVcard).length) (h2 : i < rs.length),
        extractCard ((findAllList docTwoCardsW isVcard).get ⟨i, h1⟩)
          = Except.ok (rs.get ⟨i, h2⟩) :=
  c4_one_record_per_card docTwoCardsW (by decide)
